import Mathlib

/-!
Verification development for the stage/camera calibration core
(`calibrate.py` / `calib2.py`): a shallow embedding of the registration
engine (phase correlation with parabolic subpixel refinement), the
affine-fit utility (`generate_affine_transform` over `np.linalg.lstsq`),
and the calibration controller (`AutomaticCalibration`), together with
theorems settling the specification claims.

Modelling conventions:
* floating-point arithmetic is idealised as exact arithmetic (`ℚ` for the
  controller, `ℝ`/`ℂ` for the Fourier pipeline);
* images handled by the controller are opaque values supplied by the
  camera collaborator; the measured displacement of a pair of images is an
  oracle of the environment (the claims about the controller quantify over
  every possible sequence of measured shifts);
* the stage is deterministic: after `setXYPosition(x, y)` +
  `waitForSystem()` the position reads back as `(x, y)`;
* Python exceptions are modelled with `Except`; an uncaught exception
  propagates, and state changes made before the raise are kept;
* `np.hypot(a, b) > r` is rendered as `a^2 + b^2 > r^2`, which is
  equivalent for the nonnegative radius used by the code.
-/

namespace Calib

/-! ## Registration engine: peak search and subpixel refinement

These definitions embed the part of `phase_correlate` that operates on the
real-valued correlation-magnitude surface (`calibrate.py` lines 73-86) and
the helper `parabolic_subpixel` (`calibrate.py` lines 13-38; the nested
function in `calib2.py` lines 34-51 is textually identical up to naming).
They are generic in an ordered field so that they can be instantiated both
at `ℝ` (inside the Fourier pipeline) and at `ℚ` (for executable checks). -/

/-- Row-major (C-order) list of all indices of an `h × w` array, the scan
order used by `np.argmax` / `np.unravel_index`. -/
def idxList (h w : ℕ) : List (Fin h × Fin w) :=
  (List.finRange h).flatMap fun i => (List.finRange w).map fun j => (i, j)

/-- `np.unravel_index(np.argmax(a), a.shape)` for a 2-D array: the index of
the first occurrence (in row-major scan order) of the maximal entry. -/
def argmax2 {α : Type*} [LinearOrder α] {h w : ℕ} [NeZero h] [NeZero w]
    (c : Fin h → Fin w → α) : Fin h × Fin w :=
  (idxList h w).foldl
    (fun best q => if c q.1 q.2 > c best.1 best.2 then q else best)
    (⟨0, Nat.pos_of_ne_zero (NeZero.ne h)⟩, ⟨0, Nat.pos_of_ne_zero (NeZero.ne w)⟩)

/-- `parabolic_subpixel(corr, peak)` from `calibrate.py` lines 13-38:
refine the peak location by a three-point parabolic fit along each axis
independently; returns `(subpixel_row_offset, subpixel_col_offset)`. -/
def parabolic_subpixel {α : Type*} [LinearOrderedField α] {h w : ℕ}
    (corr : Fin h → Fin w → α) (peak : Fin h × Fin w) : α × α :=
  let peak_y := peak.1
  let peak_x := peak.2
  let sub_x : α :=
    if hx : 0 < peak_x.val ∧ peak_x.val < w - 1 then
      let left := corr peak_y ⟨peak_x.val - 1, by omega⟩
      let center := corr peak_y peak_x
      let right := corr peak_y ⟨peak_x.val + 1, by have := peak_x.isLt; omega⟩
      let denom := 2 * center - left - right
      if denom ≠ 0 then (left - right) / (2 * denom) else 0
    else 0
  let sub_y : α :=
    if hy : 0 < peak_y.val ∧ peak_y.val < h - 1 then
      let top := corr ⟨peak_y.val - 1, by omega⟩ peak_x
      let center := corr peak_y peak_x
      let bottom := corr ⟨peak_y.val + 1, by have := peak_y.isLt; omega⟩ peak_x
      let denom := 2 * center - top - bottom
      if denom ≠ 0 then (top - bottom) / (2 * denom) else 0
    else 0
  (sub_y, sub_x)

/-- The subpixel-offset formula exactly as the specification words it:
"`offset_a = (left - right) / (2*(2*center - left - right))` if the
denominator is nonzero and the peak is not on the array boundary along
that axis; else `offset_a = 0`", applied independently to each axis.
Used only to compare against `parabolic_subpixel` (claim C5). -/
def subpixelSpec {α : Type*} [LinearOrderedField α] {h w : ℕ}
    (corr : Fin h → Fin w → α) (peak : Fin h × Fin w) : α × α :=
  let oy : α :=
    if hy : 0 < peak.1.val ∧ peak.1.val < h - 1 then
      (if 2 * (2 * corr peak.1 peak.2 - corr ⟨peak.1.val - 1, by omega⟩ peak.2
            - corr ⟨peak.1.val + 1, by have := peak.1.isLt; omega⟩ peak.2) ≠ 0 then
        (corr ⟨peak.1.val - 1, by omega⟩ peak.2
          - corr ⟨peak.1.val + 1, by have := peak.1.isLt; omega⟩ peak.2) /
        (2 * (2 * corr peak.1 peak.2 - corr ⟨peak.1.val - 1, by omega⟩ peak.2
          - corr ⟨peak.1.val + 1, by have := peak.1.isLt; omega⟩ peak.2))
      else 0)
    else 0
  let ox : α :=
    if hx : 0 < peak.2.val ∧ peak.2.val < w - 1 then
      (if 2 * (2 * corr peak.1 peak.2 - corr peak.1 ⟨peak.2.val - 1, by omega⟩
            - corr peak.1 ⟨peak.2.val + 1, by have := peak.2.isLt; omega⟩) ≠ 0 then
        (corr peak.1 ⟨peak.2.val - 1, by omega⟩
          - corr peak.1 ⟨peak.2.val + 1, by have := peak.2.isLt; omega⟩) /
        (2 * (2 * corr peak.1 peak.2 - corr peak.1 ⟨peak.2.val - 1, by omega⟩
          - corr peak.1 ⟨peak.2.val + 1, by have := peak.2.isLt; omega⟩))
      else 0)
    else 0
  (oy, ox)

/-- `np.array(corr.shape) // 2`, the center bin of the shifted correlation
surface. -/
def centerIdx (h w : ℕ) [NeZero h] [NeZero w] : Fin h × Fin w :=
  (⟨h / 2, Nat.div_lt_self (Nat.pos_of_ne_zero (NeZero.ne h)) one_lt_two⟩,
   ⟨w / 2, Nat.div_lt_self (Nat.pos_of_ne_zero (NeZero.ne w)) one_lt_two⟩)

/-- Lines 73-86 of `calibrate.py`: given the correlation-magnitude surface,
locate the peak, take its offset from the center as the integer shift,
refine with `parabolic_subpixel`, and return
`((shift_x, shift_y), corr_abs[peak_idx])`. -/
def pc_post {α : Type*} [LinearOrderedField α] {h w : ℕ} [NeZero h] [NeZero w]
    (corr_abs : Fin h → Fin w → α) : (α × α) × α :=
  let peak_idx := argmax2 corr_abs
  let shift_y : ℤ := (peak_idx.1.val : ℤ) - (h / 2 : ℕ)
  let shift_x : ℤ := (peak_idx.2.val : ℤ) - (w / 2 : ℕ)
  let sub := parabolic_subpixel corr_abs peak_idx
  (((shift_x : α) + sub.2, (shift_y : α) + sub.1), corr_abs peak_idx.1 peak_idx.2)

/-- The result of `argmax2` is a global maximum of the array. -/
theorem argmax2_isMax {α : Type*} [LinearOrder α] {h w : ℕ} [NeZero h] [NeZero w]
    (c : Fin h → Fin w → α) (q : Fin h × Fin w) :
    c q.1 q.2 ≤ c (argmax2 c).1 (argmax2 c).2 := by
  have key : ∀ (l : List (Fin h × Fin w)) (b : Fin h × Fin w),
      c b.1 b.2 ≤ c (l.foldl (fun best q => if c q.1 q.2 > c best.1 best.2 then q else best) b).1
        (l.foldl (fun best q => if c q.1 q.2 > c best.1 best.2 then q else best) b).2 ∧
      ∀ q ∈ l, c q.1 q.2 ≤ c (l.foldl (fun best q => if c q.1 q.2 > c best.1 best.2 then q else best) b).1
        (l.foldl (fun best q => if c q.1 q.2 > c best.1 best.2 then q else best) b).2 := by
    intro l
    induction l with
    | nil => intro b; exact ⟨le_refl _, by simp⟩
    | cons a t ih =>
      intro b
      simp only [List.foldl_cons]
      by_cases hab : c a.1 a.2 > c b.1 b.2
      · rw [if_pos hab]
        refine ⟨le_trans (le_of_lt hab) (ih a).1, ?_⟩
        intro q hq
        rcases List.mem_cons.mp hq with h1 | h2
        · subst h1; exact (ih q).1
        · exact (ih a).2 q h2
      · rw [if_neg hab]
        refine ⟨(ih b).1, ?_⟩
        intro q hq
        rcases List.mem_cons.mp hq with h1 | h2
        · subst h1; exact le_trans (le_of_not_lt hab) (ih b).1
        · exact (ih b).2 q h2
  have hmem : q ∈ idxList h w := by
    unfold idxList
    simp only [List.mem_flatMap, List.mem_map, List.mem_finRange]
    exact ⟨q.1, trivial, q.2, trivial, rfl⟩
  exact (key (idxList h w) _).2 q hmem

/-! ## Exact rational linear algebra: `np.linalg.lstsq`

`np.linalg.lstsq(A, b, rcond=None)` never fails on rank-deficient input:
it returns the minimum-norm least-squares solution `x = A⁺ b` (it raises
only when `A` is not a proper 2-D array, e.g. the empty `np.array([])`
built from an empty point-pair dict).  We realise `A⁺ b` exactly over `ℚ`
through a full-rank factorisation `A = C F` obtained from the reduced row
echelon form: `A⁺ = Fᵀ (F Fᵀ)⁻¹ (Cᵀ C)⁻¹ Cᵀ`. -/

/-- Dot product of two rational vectors (extra entries ignored). -/
def dotQ (u v : List ℚ) : ℚ := ((u.zip v).map fun p => p.1 * p.2).sum

/-- Column `j` of a row-major rational matrix. -/
def colQ (A : List (List ℚ)) (j : ℕ) : List ℚ := A.map fun r => r.getD j 0

/-- Transpose of a row-major matrix with `p` columns. -/
def transposeQ (p : ℕ) (A : List (List ℚ)) : List (List ℚ) :=
  (List.range p).map fun j => colQ A j

/-- Matrix-vector product. -/
def matVecQ (A : List (List ℚ)) (x : List ℚ) : List ℚ := A.map fun r => dotQ r x

/-- Matrix-matrix product, `B` having `p` columns. -/
def matMulQ (A B : List (List ℚ)) (p : ℕ) : List (List ℚ) :=
  A.map fun r => (List.range p).map fun j => dotQ r (colQ B j)

/-- Swap rows `a` and `b` of a matrix. -/
def swapRowsQ (M : List (List ℚ)) (a b : ℕ) : List (List ℚ) :=
  (List.range M.length).map fun i =>
    if i = a then M.getD b [] else if i = b then M.getD a [] else M.getD i []

/-- Gauss-Jordan elimination sweep: process the given columns in order,
starting at pivot row `r`; returns the reduced matrix and the list of
pivot columns. -/
def rrefGo : List (List ℚ) → ℕ → List ℕ → List (List ℚ) × List ℕ
  | M, _, [] => (M, [])
  | M, r, j :: js =>
    match ((List.range M.length).filter fun i =>
        decide (r ≤ i) && decide ((M.getD i []).getD j 0 ≠ 0)).head? with
    | none => rrefGo M r js
    | some i =>
      let M1 := swapRowsQ M r i
      let prow := M1.getD r []
      let p := prow.getD j 0
      let prow2 := prow.map fun x => x / p
      let M2 := (List.range M1.length).map fun k =>
        if k = r then prow2
        else
          let row := M1.getD k []
          let f := row.getD j 0
          (row.zip prow2).map fun q => q.1 - f * q.2
      let res := rrefGo M2 (r + 1) js
      (res.1, j :: res.2)

/-- Reduced row echelon form of a matrix with `n` columns, with pivot
column list. -/
def rrefQ (n : ℕ) (M : List (List ℚ)) : List (List ℚ) × List ℕ :=
  rrefGo M 0 (List.range n)

/-- Inverse of an (invertible) `r × r` matrix by Gauss-Jordan on the
augmented matrix `[M | I]`. -/
def invQ (r : ℕ) (M : List (List ℚ)) : List (List ℚ) :=
  let aug := (List.range r).map fun i =>
    (M.getD i []) ++ (List.range r).map fun j => if i = j then (1 : ℚ) else 0
  ((rrefGo aug 0 (List.range r)).1).map fun row => row.drop r

/-- `np.linalg.lstsq(A, b, rcond=None)[0]` for an `m × n` matrix `A`: the
minimum-norm least-squares solution `A⁺ b`, via the full-rank
factorisation `A = C F` (`C` = pivot columns of `A`, `F` = nonzero rows of
`rref A`), so `A⁺ = Fᵀ (F Fᵀ)⁻¹ (Cᵀ C)⁻¹ Cᵀ`. -/
def lstsq (n : ℕ) (A : List (List ℚ)) (b : List ℚ) : List ℚ :=
  let rp := rrefQ n A
  let piv := rp.2
  let r := piv.length
  if r = 0 then List.replicate n 0
  else
    let C := A.map fun row => piv.map fun j => row.getD j 0
    let F := rp.1.take r
    let v1 := (List.range r).map fun k => dotQ (colQ C k) b
    let v2 := matVecQ (invQ r (matMulQ (transposeQ r C) C r)) v1
    let v3 := matVecQ (invQ r (matMulQ F (transposeQ n F) r)) v2
    matVecQ (transposeQ n F) v3

/-! ## The affine-fit utility and the Python dict -/

/-- Python exceptions that the calibration code can raise. -/
inductive PyErr : Type where
  /-- `CalibrationFailedException` (the stage safety limit). -/
  | calibrationFailed : PyErr
  /-- `TypeError` from subscripting / using `None`
  (unset `initial_position` or `reference_image`). -/
  | typeErr : PyErr
  /-- `numpy.linalg.LinAlgError` from `lstsq` on a malformed (empty)
  coefficient array. -/
  | linAlgErr : PyErr
  /-- `ValueError` from numpy when elementwise operands cannot be
  broadcast together. -/
  | valueErr : PyErr
deriving DecidableEq

/-- The `3 × 3` affine matrix `[[a, b, c], [d, e, f], [0, 0, 1]]` built by
`generate_affine_transform`. -/
structure Mat3 : Type where
  a : ℚ
  b : ℚ
  c : ℚ
  d : ℚ
  e : ℚ
  f : ℚ
deriving DecidableEq

/-- The rows `[dx, dy, 1]` of the least-squares system assembled by
`generate_affine_transform` (lines 123-131 of `calibrate.py`), one row per
entry of the point-pair dict, in iteration (= insertion) order. -/
def affineRows (point_pairs : List ((ℚ × ℚ) × (ℚ × ℚ))) : List (List ℚ) :=
  point_pairs.map fun p => [p.1.1, p.1.2, 1]

/-- `generate_affine_transform(point_pairs)` from `calibrate.py` lines
113-143: build the system `A x ≈ b` from the dict items and solve with
`np.linalg.lstsq` for each target coordinate.  The source contains no
point-count or rank check; the only failure is `np.linalg.lstsq` rejecting
the non-2-D empty array arising from an empty dict. -/
def generate_affine_transform (point_pairs : List ((ℚ × ℚ) × (ℚ × ℚ))) :
    Except PyErr Mat3 :=
  let A := affineRows point_pairs
  let bx := point_pairs.map fun p => p.2.1
  let bys := point_pairs.map fun p => p.2.2
  if point_pairs.isEmpty then .error .linAlgErr
  else
    let params_x := lstsq 3 A bx
    let params_y := lstsq 3 A bys
    .ok ⟨params_x.getD 0 0, params_x.getD 1 0, params_x.getD 2 0,
         params_y.getD 0 0, params_y.getD 1 0, params_y.getD 2 0⟩

/-- Python dict assignment `d[k] = v` on a dict represented as its
insertion-ordered item list: overwrite in place if the key is present,
append otherwise. -/
def dictInsert {K V : Type} [DecidableEq K] (d : List (K × V)) (k : K) (v : V) :
    List (K × V) :=
  if d.any fun p => p.1 = k then d.map fun p => if p.1 = k then (k, v) else p
  else d ++ [(k, v)]

/-! ## The calibration controller `AutomaticCalibration`

The controller is embedded as a state-passing program.  `Img` is the type
of images as the controller sees them (it never inspects pixels itself);
the environment supplies the camera frames, the background normalisation
`subtract_minimum`, and the displacement measured by
`measure_displacement` for a pair of images — the claims about the
controller quantify over every such environment, i.e. over every possible
sequence of measured shifts. -/

/-- The collaborators of a calibration session: the `n`-th `core.snap()`
returns `camera n`; `subtract_minimum` and `measure_displacement` (the
registration engine, embedded separately above) act as oracles on the
opaque image values. -/
structure Env (Img : Type) : Type where
  camera : ℕ → Img
  subMin : Img → Img
  measureDisp : Img → Img → ℚ × ℚ

/-- The combined state of the `CMMCorePlus` stage/camera and the
`AutomaticCalibration` object.  `moves` is the (ghost) trace of every
`setXYPosition` command issued, `hist` the (ghost) trace of every value
ever held by `self.progress`. -/
structure St (Img : Type) : Type where
  pos : ℚ × ℚ
  snapCount : ℕ
  moves : List (ℚ × ℚ)
  progress : ℤ
  hist : List ℤ
  initial_position : Option (ℚ × ℚ)
  reference_image : Option Img
  safe_travel_radius : ℚ

/-- State-and-exception monad for the controller. -/
def M (Img : Type) (α : Type) : Type := St Img → Except PyErr α × St Img

instance {Img : Type} : Monad (M Img) where
  pure a := fun s => (.ok a, s)
  bind x f := fun s =>
    match x s with
    | (.ok a, s') => f a s'
    | (.error e, s') => (.error e, s')

theorem M_pure_apply {Img α : Type} (a : α) (s : St Img) :
    (pure a : M Img α) s = (.ok a, s) := rfl

theorem M_bind_apply {Img α β : Type} (x : M Img α) (f : α → M Img β) (s : St Img) :
    (x >>= f) s = match x s with
      | (.ok a, s') => f a s'
      | (.error e, s') => (.error e, s') := rfl

/-- Raise a Python exception. -/
def throwPy {Img α : Type} (e : PyErr) : M Img α := fun s => (.error e, s)

theorem throwPy_apply {Img α : Type} (e : PyErr) (s : St Img) :
    (throwPy e : M Img α) s = (.error e, s) := rfl

/-- `self._core.setXYPosition(x, y)`: command the stage; recorded in the
ghost move trace. -/
def setXYPosition {Img : Type} (x y : ℚ) : M Img Unit := fun s =>
  (.ok (), { s with pos := (x, y), moves := s.moves ++ [(x, y)] })

theorem setXYPosition_apply {Img : Type} (x y : ℚ) (s : St Img) :
    (setXYPosition x y : M Img Unit) s =
      (.ok (), { s with pos := (x, y), moves := s.moves ++ [(x, y)] }) := rfl

/-- `self._core.getXYPosition()`: the stage has settled, so this reads
back the last commanded position. -/
def getXYPosition {Img : Type} : M Img (ℚ × ℚ) := fun s => (.ok s.pos, s)

theorem getXYPosition_apply {Img : Type} (s : St Img) :
    (getXYPosition : M Img (ℚ × ℚ)) s = (.ok s.pos, s) := rfl

/-- `self._core.snap()` (with `QApplication.processEvents()` a no-op). -/
def snap {Img : Type} (env : Env Img) : M Img Img := fun s =>
  (.ok (env.camera s.snapCount), { s with snapCount := s.snapCount + 1 })

theorem snap_apply {Img : Type} (env : Env Img) (s : St Img) :
    (snap env : M Img Img) s =
      (.ok (env.camera s.snapCount), { s with snapCount := s.snapCount + 1 }) := rfl

/-- Read `self.initial_position`; subscripting `None` raises `TypeError`. -/
def getInitial {Img : Type} : M Img (ℚ × ℚ) := fun s =>
  match s.initial_position with
  | none => (.error .typeErr, s)
  | some p => (.ok p, s)

theorem getInitial_apply {Img : Type} (s : St Img) :
    (getInitial : M Img (ℚ × ℚ)) s = (match s.initial_position with
      | none => (.error .typeErr, s)
      | some p => (.ok p, s)) := rfl

/-- Read `self.reference_image`; feeding `None` to the registration engine
raises `TypeError`. -/
def getReference {Img : Type} : M Img Img := fun s =>
  match s.reference_image with
  | none => (.error .typeErr, s)
  | some r => (.ok r, s)

theorem getReference_apply {Img : Type} (s : St Img) :
    (getReference : M Img Img) s = (match s.reference_image with
      | none => (.error .typeErr, s)
      | some r => (.ok r, s)) := rfl

/-- `self.progress += 1` (ghost-logged in `hist`). -/
def incProgress {Img : Type} : M Img Unit := fun s =>
  (.ok (), { s with progress := s.progress + 1, hist := s.hist ++ [s.progress + 1] })

theorem incProgress_apply {Img : Type} (s : St Img) :
    (incProgress : M Img Unit) s =
      (.ok (), { s with progress := s.progress + 1, hist := s.hist ++ [s.progress + 1] }) := rfl

/-- `self.progress = v` (ghost-logged in `hist`). -/
def setProgress {Img : Type} (v : ℤ) : M Img Unit := fun s =>
  (.ok (), { s with progress := v, hist := s.hist ++ [v] })

theorem setProgress_apply {Img : Type} (v : ℤ) (s : St Img) :
    (setProgress v : M Img Unit) s =
      (.ok (), { s with progress := v, hist := s.hist ++ [v] }) := rfl

/-- Set `self.initial_position`. -/
def setInitial {Img : Type} (p : ℚ × ℚ) : M Img Unit := fun s =>
  (.ok (), { s with initial_position := some p })

theorem setInitial_apply {Img : Type} (p : ℚ × ℚ) (s : St Img) :
    (setInitial p : M Img Unit) s = (.ok (), { s with initial_position := some p }) := rfl

/-- Set `self.reference_image`. -/
def setReference {Img : Type} (r : Img) : M Img Unit := fun s =>
  (.ok (), { s with reference_image := some r })

theorem setReference_apply {Img : Type} (r : Img) (s : St Img) :
    (setReference r : M Img Unit) s = (.ok (), { s with reference_image := some r }) := rfl

/-- Read `self._safe_travel_radius`. -/
def getRadius {Img : Type} : M Img ℚ := fun s => (.ok s.safe_travel_radius, s)

theorem getRadius_apply {Img : Type} (s : St Img) :
    (getRadius : M Img ℚ) s = (.ok s.safe_travel_radius, s) := rfl

/-- `AutomaticCalibration.snap_image_at(x, y)` (lines 159-169): the safety
check `np.hypot(ix - x, iy - y) > self._safe_travel_radius` (rendered in
the equivalent squared form, the radius being nonnegative) against the
session's *initial* position, raising `CalibrationFailedException` before
any move is commanded; otherwise move, wait for settling and snap. -/
def snap_image_at {Img : Type} (env : Env Img) (x y : ℚ) : M Img Img := do
  let initial_pos ← getInitial
  let r ← getRadius
  if (initial_pos.1 - x) ^ 2 + (initial_pos.2 - y) ^ 2 > r ^ 2 then
    throwPy .calibrationFailed
  else do
    setXYPosition x y
    snap env

/-- `measure_displacement(proc1, proc2)` (lines 99-110): at controller
level the value returned by the registration engine for this pair of
images is supplied by the environment. -/
def measure_displacement {Img : Type} (env : Env Img) (proc1 proc2 : Img) :
    M Img (ℚ × ℚ) :=
  pure (env.measureDisp proc1 proc2)

/-- Lift the result of a pure Python call that may raise. -/
def liftExcept {Img α : Type} (x : Except PyErr α) : M Img α := fun s => (x, s)

theorem liftExcept_apply {Img α : Type} (x : Except PyErr α) (s : St Img) :
    (liftExcept x : M Img α) s = (x, s) := rfl

/-- The body of `run_search`'s `for i in range(25)` loop (lines 189-210),
recursing on the number of remaining iterations: at the top of each
iteration, break if `np.abs(2*disp[0]) > 100 or np.abs(2*disp[1]) > 100`;
otherwise double `dx`, `dy`, `disp`, snap at
`initial_position + (dx, dy)`, measure the displacement of the new image
against the reference, accumulate it into `disp` and bump the progress
counter. -/
def run_search_loop {Img : Type} (env : Env Img) :
    ℕ → ℚ → ℚ → ℚ × ℚ → M Img (ℚ × ℚ)
  | 0, _, _, disp => pure disp
  | n + 1, dx, dy, disp => do
    if |2 * disp.1| > 100 ∨ |2 * disp.2| > 100 then pure disp
    else do
      let dx := dx * 2
      let dy := dy * 2
      let disp := (disp.1 * 2, disp.2 * 2)
      let initial ← getInitial
      let expected_x := initial.1 + dx
      let expected_y := initial.2 + dy
      let img ← snap_image_at env expected_x expected_y
      let ref ← getReference
      let d_change ← measure_displacement env ref img
      incProgress
      run_search_loop env n dx dy (disp.1 + d_change.1, disp.2 + d_change.2)

/-- `AutomaticCalibration.run_search(dxi, dyi, initial_disp)` (lines
178-212): run the doubling loop for at most 25 iterations, then return
`(tuple(disp), self._core.getXYPosition())`. -/
def run_search {Img : Type} (env : Env Img) (dxi dyi : ℚ) (initial_disp : ℚ × ℚ) :
    M Img ((ℚ × ℚ) × (ℚ × ℚ)) := do
  let disp ← run_search_loop env 25 dxi dyi initial_disp
  let stage_pos ← getXYPosition
  pure (disp, stage_pos)

/-- `AutomaticCalibration.measure_corner(first_approx, corner)` (lines
214-235): transform the homogeneous corner by the first approximation,
snap there, measure the displacement against the reference, and return
`(corner + d_change, stage position)`, bumping the progress counter. -/
def measure_corner {Img : Type} (env : Env Img) (first_approx : Mat3)
    (corner : ℚ × ℚ) : M Img ((ℚ × ℚ) × (ℚ × ℚ)) := do
  let expected_x := first_approx.a * corner.1 + first_approx.b * corner.2 + first_approx.c
  let expected_y := first_approx.d * corner.1 + first_approx.e * corner.2 + first_approx.f
  let img ← snap_image_at env expected_x expected_y
  let ref ← getReference
  let d_change ← measure_displacement env ref img
  let measured_disp := (corner.1 + d_change.1, corner.2 + d_change.2)
  let stage_pos ← getXYPosition
  incProgress
  pure (measured_disp, stage_pos)

/-- The point-pair dict built by `get_first_approx` (lines 255-267): the
origin pair `(0.0, 0.0) ↦ initial_position`, then the X-search result,
then the Y-search result, with Python-dict overwrite semantics. -/
def firstApproxPairs (init dispX posX dispY posY : ℚ × ℚ) :
    List ((ℚ × ℚ) × (ℚ × ℚ)) :=
  dictInsert (dictInsert (dictInsert [] ((0 : ℚ), (0 : ℚ)) init) dispX posX) dispY posY

/-- `AutomaticCalibration.get_first_approx()` (lines 237-272): record the
initial position, capture and normalise the reference image, run the two
axis searches with seed displacement `0.1`, and fit the affine transform
from the three collected point pairs. -/
def get_first_approx {Img : Type} (env : Env Img) : M Img Mat3 := do
  let p ← getXYPosition
  setInitial p
  let initial ← getInitial
  let base_image ← snap_image_at env initial.1 initial.2
  setReference base_image
  let ref ← getReference
  setReference (env.subMin ref)
  let rx ← run_search env (1 / 10) 0 (0, 0)
  let ry ← run_search env 0 (1 / 10) (0, 0)
  liftExcept (generate_affine_transform (firstApproxPairs p rx.1 rx.2 ry.1 ry.2))

/-- The four corner offsets `(±offset, ±offset)` with `offset = 50`
(lines 279-286), in source order. -/
def cornersList : List (ℚ × ℚ) := [(-50, -50), (-50, 50), (50, 50), (50, -50)]

/-- The `for corner in [...]` loop of `get_second_approx`, accumulating
the point-pair dict. -/
def second_approx_go {Img : Type} (env : Env Img) (first_approx : Mat3) :
    List (ℚ × ℚ) → List ((ℚ × ℚ) × (ℚ × ℚ)) → M Img (List ((ℚ × ℚ) × (ℚ × ℚ)))
  | [], pp => pure pp
  | c :: cs, pp => do
    let r ← measure_corner env first_approx c
    second_approx_go env first_approx cs (dictInsert pp r.1 r.2)

/-- `AutomaticCalibration.get_second_approx(first_approx)` (lines
274-293): measure the four corners and refit the affine transform. -/
def get_second_approx {Img : Type} (env : Env Img) (first_approx : Mat3) :
    M Img Mat3 := do
  let pp ← second_approx_go env first_approx cornersList []
  liftExcept (generate_affine_transform pp)

/-- `AutomaticCalibration.run_calibration()` (lines 295-304): first
approximation, `self.progress = 20`, second approximation, then reset the
stage to the original position and return the transform. -/
def run_calibration {Img : Type} (env : Env Img) : M Img Mat3 := do
  let first_approx ← get_first_approx env
  setProgress 20
  let second_approx ← get_second_approx env first_approx
  let initial ← getInitial
  setXYPosition initial.1 initial.2
  pure second_approx

/-- `AutomaticCalibration.run()` (lines 306-313): run the calibration,
catching (only) `CalibrationFailedException`. -/
def run {Img : Type} (env : Env Img) : M Img Unit := fun s =>
  match run_calibration env s with
  | (.ok _, s') => (.ok (), s')
  | (.error .calibrationFailed, s') => (.ok (), s')
  | (.error e, s') => (.error e, s')

/-- The state right after `AutomaticCalibration.__init__` (lines 147-157)
with the stage parked at `p0`: `progress = 0`, no initial position, no
reference image, `_safe_travel_radius = 10000`. -/
def initSt (Img : Type) (p0 : ℚ × ℚ) : St Img :=
  { pos := p0, snapCount := 0, moves := [], progress := 0, hist := [0],
    initial_position := none, reference_image := none, safe_travel_radius := 10000 }

/-! ## The Fourier pipeline of `phase_correlate`

Lines 41-86 of `calibrate.py`, with IEEE floating point idealised as exact
real/complex arithmetic.  An image is a 2-D complex array (the code feeds
real-valued arrays; `np.fft` works over `ℂ`).  `np.fft.fft2` /
`np.fft.ifft2` are the standard 2-D DFT
`F[k,l] = Σ_{m,n} x[m,n]·exp(-2πi(km/h + ln/w))` and its inverse with the
`1/(h·w)` normalisation. -/

/-- Images as 2-D complex arrays. -/
def Image (h w : ℕ) : Type := Fin h → Fin w → ℂ

/-- `exp(2πi q)` for a rational phase fraction `q`. -/
noncomputable def eTheta (q : ℚ) : ℂ :=
  Complex.exp (((2 * Real.pi * (q : ℝ) : ℝ)) * Complex.I)

/-- `np.fft.fft2`. -/
noncomputable def fft2 {h w : ℕ} (x : Image h w) : Image h w :=
  fun k l => ∑ m : Fin h, ∑ n : Fin w,
    x m n * eTheta (-(((k.val : ℚ) * m.val) / h + ((l.val : ℚ) * n.val) / w))

/-- `np.fft.ifft2`. -/
noncomputable def ifft2 {h w : ℕ} (x : Image h w) : Image h w :=
  fun m n => (∑ k : Fin h, ∑ l : Fin w,
    x k l * eTheta (((k.val : ℚ) * m.val) / h + ((l.val : ℚ) * n.val) / w)) / ((h * w : ℕ) : ℂ)

/-- One entry of the normalised cross-power spectrum:
`R /= np.abs(R) + eps` applied to `z = F1 * conj(F2)`. -/
noncomputable def normalizeCP (z : ℂ) (eps : ℝ) : ℂ :=
  z / (((Complex.abs z + eps : ℝ)) : ℂ)

/-- `np.fft.fftshift` for a 2-D array: roll each axis by `n // 2`, so that
`out[i] = in[(i - n//2) mod n]`. -/
def fftshift {h w : ℕ} [NeZero h] [NeZero w] (x : Image h w) : Image h w :=
  fun i j =>
    x ⟨(i.val + h - h / 2) % h, Nat.mod_lt _ (Nat.pos_of_ne_zero (NeZero.ne h))⟩
      ⟨(j.val + w - w / 2) % w, Nat.mod_lt _ (Nat.pos_of_ne_zero (NeZero.ne w))⟩

/-- Lines 61-71 of `phase_correlate`: FFT both images, normalise the
cross-power spectrum, inverse-transform, shift zero frequency to the
center and take magnitudes (`corr_abs`). -/
noncomputable def corrSurface {h w : ℕ} [NeZero h] [NeZero w]
    (img1 img2 : Image h w) (eps : ℝ) : Fin h → Fin w → ℝ :=
  fun i j => Complex.abs
    (fftshift (ifft2 fun k l =>
      normalizeCP (fft2 img1 k l * (starRingEnd ℂ) (fft2 img2 k l)) eps) i j)

/-- `phase_correlate(img1, img2, eps)` (lines 41-86) for same-shape
images: the correlation surface followed by peak location, integer shift
and subpixel refinement; returns `((shift_x, shift_y), peak_value)`. -/
noncomputable def phase_correlate {h w : ℕ} [NeZero h] [NeZero w]
    (img1 img2 : Image h w) (eps : ℝ) : (ℝ × ℝ) × ℝ :=
  pc_post (corrSurface img1 img2 eps)

/-- Numpy broadcast compatibility of two sizes along one axis. -/
def bcCompat (a b : ℕ) : Prop := a = b ∨ a = 1 ∨ b = 1

instance (a b : ℕ) : Decidable (bcCompat a b) := by unfold bcCompat; infer_instance

/-- `phase_correlate` on images of arbitrary (possibly different) shapes.
The source performs no shape check of its own; the elementwise product
`F1 * np.conjugate(F2)` broadcasts the two spectra, raising `ValueError`
exactly when some axis has incompatible sizes.  Under broadcasting, an
axis of size 1 is indexed at 0 and an axis of full size at the output
index — both uniformly `i % size` since a compatible size is 1 or the
maximum.  The rest of the pipeline then runs on the broadcast shape. -/
noncomputable def phase_correlate_bc {h1 w1 h2 w2 : ℕ}
    [NeZero h1] [NeZero w1] [NeZero h2] [NeZero w2]
    (img1 : Image h1 w1) (img2 : Image h2 w2) (eps : ℝ) :
    Except PyErr ((ℝ × ℝ) × ℝ) :=
  if bcCompat h1 h2 ∧ bcCompat w1 w2 then
    haveI : NeZero (max h1 h2) := ⟨by
      have := Nat.pos_of_ne_zero (NeZero.ne h1); omega⟩
    haveI : NeZero (max w1 w2) := ⟨by
      have := Nat.pos_of_ne_zero (NeZero.ne w1); omega⟩
    .ok (pc_post (fun (i : Fin (max h1 h2)) (j : Fin (max w1 w2)) =>
      Complex.abs
        (fftshift (ifft2 fun (k : Fin (max h1 h2)) (l : Fin (max w1 w2)) =>
          normalizeCP
            (fft2 img1 ⟨k.val % h1, Nat.mod_lt _ (Nat.pos_of_ne_zero (NeZero.ne h1))⟩
                ⟨l.val % w1, Nat.mod_lt _ (Nat.pos_of_ne_zero (NeZero.ne w1))⟩ *
              (starRingEnd ℂ)
                (fft2 img2 ⟨k.val % h2, Nat.mod_lt _ (Nat.pos_of_ne_zero (NeZero.ne h2))⟩
                  ⟨l.val % w2, Nat.mod_lt _ (Nat.pos_of_ne_zero (NeZero.ne w2))⟩))
            eps) i j)))
  else .error .valueErr

/-! ## One-iteration evaluation lemmas for the controller

These characterise one step of `run_search`'s doubling loop and one
`measure_corner` call, for symbolic execution of concrete sessions. -/

/-- Squared Euclidean distance between two stage positions. -/
def dist2 (a b : ℚ × ℚ) : ℚ := (a.1 - b.1) ^ 2 + (a.2 - b.2) ^ 2

/-- A doubling-loop iteration with the break condition satisfied returns
the running displacement unchanged without touching the state. -/
theorem run_search_loop_break {Img : Type} (env : Env Img) (n : ℕ) (dx dy : ℚ)
    (disp : ℚ × ℚ) (s : St Img)
    (hbrk : |2 * disp.1| > 100 ∨ |2 * disp.2| > 100) :
    run_search_loop env (n + 1) dx dy disp s = (.ok disp, s) := by
  simp only [run_search_loop]
  rw [if_pos hbrk]
  rfl

/-- A doubling-loop iteration below the break threshold and inside the
safety radius: double, move, snap, measure, accumulate, bump progress. -/
theorem run_search_loop_step {Img : Type} (env : Env Img) (n : ℕ) (dx dy : ℚ)
    (disp : ℚ × ℚ) (s : St Img) (p : ℚ × ℚ) (ref : Img)
    (hip : s.initial_position = some p)
    (href : s.reference_image = some ref)
    (hr : s.safe_travel_radius = 10000)
    (hbrk : ¬(|2 * disp.1| > 100 ∨ |2 * disp.2| > 100))
    (hsafe : ¬((p.1 - (p.1 + dx * 2)) ^ 2 + (p.2 - (p.2 + dy * 2)) ^ 2 > (10000 : ℚ) ^ 2)) :
    run_search_loop env (n + 1) dx dy disp s =
      run_search_loop env n (dx * 2) (dy * 2)
        (disp.1 * 2 + (env.measureDisp ref (env.camera s.snapCount)).1,
         disp.2 * 2 + (env.measureDisp ref (env.camera s.snapCount)).2)
        { s with pos := (p.1 + dx * 2, p.2 + dy * 2),
                 moves := s.moves ++ [(p.1 + dx * 2, p.2 + dy * 2)],
                 snapCount := s.snapCount + 1,
                 progress := s.progress + 1,
                 hist := s.hist ++ [s.progress + 1] } := by
  obtain ⟨pos0, sc0, mv0, pr0, hs0, ip0, ri0, r0⟩ := s
  simp only at hip href hr
  subst hip
  subst href
  subst hr
  simp only [run_search_loop]
  rw [if_neg hbrk]
  simp only [snap_image_at, measure_displacement, M_bind_apply, M_pure_apply,
    getInitial_apply, getRadius_apply, setXYPosition_apply, snap_apply,
    getReference_apply, incProgress_apply, throwPy_apply]
  rw [if_neg hsafe]
  simp only [M_bind_apply, M_pure_apply, setXYPosition_apply, snap_apply,
    getReference_apply, incProgress_apply, measure_displacement, throwPy_apply]

/-- A doubling-loop iteration below the break threshold whose requested
move violates the safety radius aborts with the calibration failure,
leaving the state untouched. -/
theorem run_search_loop_abort {Img : Type} (env : Env Img) (n : ℕ) (dx dy : ℚ)
    (disp : ℚ × ℚ) (s : St Img) (p : ℚ × ℚ)
    (hip : s.initial_position = some p)
    (hr : s.safe_travel_radius = 10000)
    (hbrk : ¬(|2 * disp.1| > 100 ∨ |2 * disp.2| > 100))
    (hfar : (p.1 - (p.1 + dx * 2)) ^ 2 + (p.2 - (p.2 + dy * 2)) ^ 2 > (10000 : ℚ) ^ 2) :
    run_search_loop env (n + 1) dx dy disp s = (.error .calibrationFailed, s) := by
  obtain ⟨pos0, sc0, mv0, pr0, hs0, ip0, ri0, r0⟩ := s
  simp only at hip hr
  subst hip
  subst hr
  simp only [run_search_loop]
  rw [if_neg hbrk]
  simp only [snap_image_at, M_bind_apply, getInitial_apply,
    getRadius_apply, throwPy_apply]
  rw [if_pos hfar]
  simp only [M_bind_apply, throwPy_apply]

/-- `run_search` in terms of its loop. -/
theorem run_search_eval {Img : Type} (env : Env Img) (dxi dyi : ℚ)
    (initial_disp : ℚ × ℚ) (s : St Img) :
    run_search env dxi dyi initial_disp s =
      match run_search_loop env 25 dxi dyi initial_disp s with
      | (.ok d, s') => (.ok (d, s'.pos), s')
      | (.error e, s') => (.error e, s') := by
  simp only [run_search, M_bind_apply, getXYPosition_apply, M_pure_apply]
  rcases run_search_loop env 25 dxi dyi initial_disp s with ⟨r, s'⟩
  cases r <;> rfl

/-- A successful `measure_corner` call: move to the transformed corner,
snap, measure, return the corrected displacement with the stage position,
and bump the progress counter. -/
theorem measure_corner_ok {Img : Type} (env : Env Img) (fa : Mat3) (corner : ℚ × ℚ)
    (s : St Img) (p : ℚ × ℚ) (ref : Img)
    (hip : s.initial_position = some p)
    (href : s.reference_image = some ref)
    (hr : s.safe_travel_radius = 10000)
    (hsafe : ¬((p.1 - (fa.a * corner.1 + fa.b * corner.2 + fa.c)) ^ 2 +
      (p.2 - (fa.d * corner.1 + fa.e * corner.2 + fa.f)) ^ 2 > (10000 : ℚ) ^ 2)) :
    measure_corner env fa corner s =
      (.ok ((corner.1 + (env.measureDisp ref (env.camera s.snapCount)).1,
             corner.2 + (env.measureDisp ref (env.camera s.snapCount)).2),
            (fa.a * corner.1 + fa.b * corner.2 + fa.c,
             fa.d * corner.1 + fa.e * corner.2 + fa.f)),
       { s with pos := (fa.a * corner.1 + fa.b * corner.2 + fa.c,
                        fa.d * corner.1 + fa.e * corner.2 + fa.f),
                moves := s.moves ++ [(fa.a * corner.1 + fa.b * corner.2 + fa.c,
                                      fa.d * corner.1 + fa.e * corner.2 + fa.f)],
                snapCount := s.snapCount + 1,
                progress := s.progress + 1,
                hist := s.hist ++ [s.progress + 1] }) := by
  obtain ⟨pos0, sc0, mv0, pr0, hs0, ip0, ri0, r0⟩ := s
  simp only at hip href hr
  subst hip
  subst href
  subst hr
  simp only [measure_corner, snap_image_at, measure_displacement, M_bind_apply, M_pure_apply,
    getInitial_apply, getRadius_apply, setXYPosition_apply, snap_apply,
    getReference_apply, incProgress_apply, throwPy_apply, getXYPosition_apply]
  rw [if_neg hsafe]
  simp only [M_bind_apply, M_pure_apply, setXYPosition_apply, snap_apply,
    getReference_apply, incProgress_apply, measure_displacement, getXYPosition_apply]

/-- A `measure_corner` call whose transformed corner violates the safety
radius aborts with the calibration failure, leaving the state untouched. -/
theorem measure_corner_abort {Img : Type} (env : Env Img) (fa : Mat3) (corner : ℚ × ℚ)
    (s : St Img) (p : ℚ × ℚ)
    (hip : s.initial_position = some p)
    (hr : s.safe_travel_radius = 10000)
    (hfar : (p.1 - (fa.a * corner.1 + fa.b * corner.2 + fa.c)) ^ 2 +
      (p.2 - (fa.d * corner.1 + fa.e * corner.2 + fa.f)) ^ 2 > (10000 : ℚ) ^ 2) :
    measure_corner env fa corner s = (.error .calibrationFailed, s) := by
  obtain ⟨pos0, sc0, mv0, pr0, hs0, ip0, ri0, r0⟩ := s
  simp only at hip hr
  subst hip
  subst hr
  simp only [measure_corner, snap_image_at, M_bind_apply, getInitial_apply,
    getRadius_apply, throwPy_apply]
  rw [if_pos hfar]
  simp only [M_bind_apply, throwPy_apply]

/-- The prefix of `get_first_approx` up to the start of the X-axis search:
record the initial position, snap the base image at it (a zero-distance
move that always passes the safety check), and normalise the reference. -/
theorem get_first_approx_unfold {Img : Type} (env : Env Img) (s : St Img) :
    get_first_approx env s =
      (match run_search env (1 / 10) 0 (0, 0)
          { s with pos := (s.pos.1, s.pos.2),
                   moves := s.moves ++ [(s.pos.1, s.pos.2)],
                   snapCount := s.snapCount + 1,
                   initial_position := some s.pos,
                   reference_image := some (env.subMin (env.camera s.snapCount)) } with
      | (.error e, s') => (.error e, s')
      | (.ok rx, s') =>
        match run_search env 0 (1 / 10) (0, 0) s' with
        | (.error e, s'') => (.error e, s'')
        | (.ok ry, s'') =>
          (generate_affine_transform (firstApproxPairs s.pos rx.1 rx.2 ry.1 ry.2), s'')) := by
  obtain ⟨pos0, sc0, mv0, pr0, hs0, ip0, ri0, r0⟩ := s
  simp only [get_first_approx, M_bind_apply, M_pure_apply, getXYPosition_apply,
    setInitial_apply, getInitial_apply, snap_image_at, getRadius_apply,
    setXYPosition_apply, snap_apply, setReference_apply, getReference_apply,
    throwPy_apply, liftExcept_apply]
  rw [if_neg (by
    simp only [sub_self]
    intro hcon
    nlinarith [sq_nonneg r0])]
  simp only [M_bind_apply, M_pure_apply, setXYPosition_apply, snap_apply,
    setReference_apply, getReference_apply, liftExcept_apply]
  rcases hx : run_search env (1 / 10) 0 (0, 0) _ with ⟨rx, s'⟩
  cases rx with
  | error e => rfl
  | ok rx =>
    dsimp only
    rcases hy : run_search env 0 (1 / 10) (0, 0) s' with ⟨ry, s''⟩
    cases ry <;> rfl

/-- A run of `j` consecutive doubling iterations along the unit direction
`(ux, uy)` during which the registration oracle measures zero shift: the
running displacement stays `(0, 0)`, the seed keeps doubling, and the
stage walks outward to `initial + u * 2^(k+j)/10`, all moves remaining
inside the safety radius as long as `k + j ≤ 16`. -/
theorem loop_zero_run {Img : Type} (env : Env Img) (p : ℚ × ℚ) (ref : Img) (ux uy : ℚ)
    (hu : ux ^ 2 + uy ^ 2 = 1) :
    ∀ (j k n : ℕ) (s : St Img) (dxv dyv : ℚ),
      s.initial_position = some p →
      s.reference_image = some ref →
      s.safe_travel_radius = 10000 →
      (∀ i, i < j → env.measureDisp ref (env.camera (s.snapCount + i)) = (0, 0)) →
      j ≤ n → k + j ≤ 16 →
      dxv = ux * (2 ^ k / 10) → dyv = uy * (2 ^ k / 10) →
      run_search_loop env n dxv dyv (0, 0) s =
        run_search_loop env (n - j) (ux * (2 ^ (k + j) / 10)) (uy * (2 ^ (k + j) / 10)) (0, 0)
          { s with
            pos := if j = 0 then s.pos else
              (p.1 + ux * (2 ^ (k + j) / 10), p.2 + uy * (2 ^ (k + j) / 10)),
            moves := s.moves ++ (List.range j).map
              (fun i => (p.1 + ux * (2 ^ (k + i + 1) / 10), p.2 + uy * (2 ^ (k + i + 1) / 10))),
            snapCount := s.snapCount + j,
            progress := s.progress + j,
            hist := s.hist ++ (List.range j).map (fun i : ℕ => s.progress + ((i : ℤ) + 1)) } := by
  intro j
  induction j with
  | zero =>
    intro k n s dxv dyv hip href hr hm hjn hk hdx hdy
    subst hdx
    subst hdy
    simp
  | succ j ih =>
    intro k n s dxv dyv hip href hr hm hjn hk hdx hdy
    obtain ⟨m, rfl⟩ : ∃ m, n = m + 1 := ⟨n - 1, by omega⟩
    have hsafe : ¬((p.1 - (p.1 + dxv * 2)) ^ 2 + (p.2 - (p.2 + dyv * 2)) ^ 2 >
        (10000 : ℚ) ^ 2) := by
      subst hdx
      subst hdy
      have h1 : (2 : ℚ) ^ k ≤ 2 ^ 15 := by
        apply pow_le_pow_right₀ (by norm_num)
        omega
      have h2 : (0 : ℚ) < 2 ^ k := by positivity
      intro hcon
      have hexp : ((2 : ℚ) ^ 15) = 32768 := by norm_num
      rw [hexp] at h1
      nlinarith [hu, sq_nonneg ((2 : ℚ) ^ k), h1, h2]
    rw [run_search_loop_step env m dxv dyv (0, 0) s p ref hip href hr (by norm_num) hsafe]
    have hm0 : env.measureDisp ref (env.camera s.snapCount) = (0, 0) := by
      have := hm 0 (by omega)
      simpa using this
    rw [hm0]
    have harg : ((0 : ℚ) * 2 + ((0 : ℚ), (0 : ℚ)).1, (0 : ℚ) * 2 + ((0 : ℚ), (0 : ℚ)).2) =
        ((0 : ℚ), (0 : ℚ)) := by norm_num
    rw [harg]
    rw [ih (k + 1) m _ (dxv * 2) (dyv * 2) (by simp [hip]) (by simp [href]) (by simp [hr])
      (by
        intro i hi
        simp only
        have := hm (i + 1) (by omega)
        rw [show s.snapCount + 1 + i = s.snapCount + (i + 1) by omega]
        exact this)
      (by omega) (by omega)
      (by subst hdx; rw [pow_succ]; ring)
      (by subst hdy; rw [pow_succ]; ring)]
    rw [show m - j = m + 1 - (j + 1) from by omega,
      show k + 1 + j = k + (j + 1) from by omega]
    congr 1
    congr 1
    · rw [if_neg (Nat.succ_ne_zero j)]
      by_cases hj0 : j = 0
      · subst hj0
        rw [if_pos rfl]
        subst hdx
        subst hdy
        rw [show k + (0 + 1) = k + 1 from by omega, pow_succ]
        refine Prod.ext ?_ ?_ <;> dsimp only <;> ring
      · rw [if_neg hj0]
    · dsimp only
      omega
    · dsimp only
      rw [List.append_assoc]
      refine congrArg (fun t => s.moves ++ t) ?_
      rw [List.range_succ_eq_map, List.map_cons, List.map_map, List.singleton_append]
      refine congrArg₂ (fun (a : ℚ × ℚ) t => a :: t) ?_ ?_
      · subst hdx
        subst hdy
        rw [show k + 0 + 1 = k + 1 from by omega, pow_succ]
        refine Prod.ext ?_ ?_ <;> dsimp only <;> ring
      · apply List.map_congr_left
        intro i _
        simp only [Function.comp_apply]
        rw [show k + 1 + i + 1 = k + (i + 1) + 1 from by omega]
    · dsimp only
      push_cast
      ring
    · dsimp only
      rw [List.append_assoc]
      refine congrArg (fun t => s.hist ++ t) ?_
      rw [List.range_succ_eq_map, List.map_cons, List.map_map, List.singleton_append]
      refine congrArg₂ (fun (a : ℤ) t => a :: t) ?_ ?_
      · push_cast
        ring
      · apply List.map_congr_left
        intro i _
        simp only [Function.comp_apply]
        push_cast
        ring

/-! ## A concrete aborting session

An environment in which the registration oracle always measures zero
shift: the doubling search never reaches its break threshold, and the
17th requested move (at `0.1 * 2^17 = 13107.2` stage units) trips the
safety check, aborting the calibration.  Images are represented by their
snap index. -/

/-- Oracle measuring zero displacement for every image pair. -/
def envAbort : Env ℕ := { camera := id, subMin := id, measureDisp := fun _ _ => (0, 0) }

/-- The state in which the aborting session ends: 16 doubling moves along
X were issued (the base snap plus `0.2 ... 6553.6`), and the session died
requesting the 17th; the stage is left at `(6553.6, 0)`. -/
def sAfin : St ℕ :=
  { pos := (32768 / 5, 0), snapCount := 17,
    moves := [(0, 0), (1/5, 0), (2/5, 0), (4/5, 0), (8/5, 0), (16/5, 0), (32/5, 0),
      (64/5, 0), (128/5, 0), (256/5, 0), (512/5, 0), (1024/5, 0), (2048/5, 0),
      (4096/5, 0), (8192/5, 0), (16384/5, 0), (32768/5, 0)],
    progress := 16, hist := [0, 1, 2, 3, 4, 5, 6, 7, 8, 9, 10, 11, 12, 13, 14, 15, 16],
    initial_position := some (0, 0), reference_image := some 0, safe_travel_radius := 10000 }

set_option maxRecDepth 8000 in
/-- The X-axis doubling loop of the aborting session: 16 zero-measure
iterations walk the stage out to `6553.6`, and the 17th request at
`13107.2` trips the safety check. -/
theorem loop_envAbort :
    run_search_loop envAbort 25 (1 / 10) 0 ((0 : ℚ), (0 : ℚ))
      { initSt ℕ (0, 0) with
        pos := ((initSt ℕ (0, 0)).pos.1, (initSt ℕ (0, 0)).pos.2),
        moves := (initSt ℕ (0, 0)).moves ++ [((initSt ℕ (0, 0)).pos.1, (initSt ℕ (0, 0)).pos.2)],
        snapCount := (initSt ℕ (0, 0)).snapCount + 1,
        initial_position := some (initSt ℕ (0, 0)).pos,
        reference_image := some (envAbort.subMin (envAbort.camera (initSt ℕ (0, 0)).snapCount)) } =
    (.error .calibrationFailed, sAfin) := by
  have hz := loop_zero_run envAbort ((0 : ℚ), (0 : ℚ))
      (envAbort.subMin (envAbort.camera (initSt ℕ (0, 0)).snapCount)) 1 0 (by norm_num)
      16 0 25
      { initSt ℕ (0, 0) with
        pos := ((initSt ℕ (0, 0)).pos.1, (initSt ℕ (0, 0)).pos.2),
        moves := (initSt ℕ (0, 0)).moves ++ [((initSt ℕ (0, 0)).pos.1, (initSt ℕ (0, 0)).pos.2)],
        snapCount := (initSt ℕ (0, 0)).snapCount + 1,
        initial_position := some (initSt ℕ (0, 0)).pos,
        reference_image := some (envAbort.subMin (envAbort.camera (initSt ℕ (0, 0)).snapCount)) }
      (1 / 10) 0 rfl rfl rfl (fun i _ => rfl) (by norm_num) (by norm_num) (by norm_num)
      (by norm_num)
  rw [hz]
  have key : ∀ t : St ℕ, t.initial_position = some (0, 0) → t.safe_travel_radius = 10000 →
      t = sAfin →
      run_search_loop envAbort (25 - 16) (1 * (2 ^ (0 + 16) / 10)) (0 * (2 ^ (0 + 16) / 10))
        ((0 : ℚ), (0 : ℚ)) t = (.error .calibrationFailed, sAfin) := by
    intro t hip hr ht
    rw [show (25 - 16 : ℕ) = 8 + 1 from rfl]
    rw [run_search_loop_abort envAbort 8 (1 * (2 ^ (0 + 16) / 10)) (0 * (2 ^ (0 + 16) / 10))
      ((0 : ℚ), (0 : ℚ)) t (0, 0) hip hr (by norm_num) (by norm_num)]
    rw [ht]
  exact key _ (by norm_num [initSt, envAbort]) (by norm_num [initSt, envAbort])
    (by norm_num [initSt, envAbort, sAfin, List.range_succ])

theorem gfa_envAbort :
    get_first_approx envAbort (initSt ℕ (0, 0)) = (.error .calibrationFailed, sAfin) := by
  rw [get_first_approx_unfold, run_search_eval, loop_envAbort]

theorem run_calibration_envAbort :
    run_calibration envAbort (initSt ℕ (0, 0)) = (.error .calibrationFailed, sAfin) := by
  simp only [run_calibration, M_bind_apply]
  rw [gfa_envAbort]

theorem run_envAbort : run envAbort (initSt ℕ (0, 0)) = (.ok (), sAfin) := by
  simp only [run]
  rw [run_calibration_envAbort]

/-! ## A concrete session in which the progress counter decreases

The oracle measures zero shift until the 16th X-search snap, where it
reports `(60, 0)` (breaking the X search after 16 iterations), and until
the 5th Y-search snap (number 21 overall), where it reports `(60, 1/2)`
(breaking the Y search after 5 iterations).  The two searches perform 21
progress increments before `run_calibration` assigns `progress = 20`,
and the near-collinear point pairs blow up the fitted transform, so the
first corner probe then trips the safety check. -/

/-- The oracle of the progress-decreasing session. -/
def env8 : Env ℕ :=
  { camera := id, subMin := id,
    measureDisp := fun _ t =>
      if t = 16 then (60, 0) else if t = 21 then (60, 1 / 2) else (0, 0) }

set_option maxRecDepth 8000 in
/-- The X-axis doubling loop of the decreasing session: 15 zero-measure
iterations, then a 16th measuring `(60, 0)`, then the break; it ends in
the same state as the aborting session's 16 moves. -/
theorem loop8X :
    run_search_loop env8 25 (1 / 10) 0 ((0 : ℚ), (0 : ℚ))
      { initSt ℕ (0, 0) with
        pos := ((initSt ℕ (0, 0)).pos.1, (initSt ℕ (0, 0)).pos.2),
        moves := (initSt ℕ (0, 0)).moves ++ [((initSt ℕ (0, 0)).pos.1, (initSt ℕ (0, 0)).pos.2)],
        snapCount := (initSt ℕ (0, 0)).snapCount + 1,
        initial_position := some (initSt ℕ (0, 0)).pos,
        reference_image := some (env8.subMin (env8.camera (initSt ℕ (0, 0)).snapCount)) } =
    (.ok ((60 : ℚ), (0 : ℚ)), sAfin) := by
  have hz := loop_zero_run env8 ((0 : ℚ), (0 : ℚ))
      (env8.subMin (env8.camera (initSt ℕ (0, 0)).snapCount)) 1 0 (by norm_num)
      15 0 25
      { initSt ℕ (0, 0) with
        pos := ((initSt ℕ (0, 0)).pos.1, (initSt ℕ (0, 0)).pos.2),
        moves := (initSt ℕ (0, 0)).moves ++ [((initSt ℕ (0, 0)).pos.1, (initSt ℕ (0, 0)).pos.2)],
        snapCount := (initSt ℕ (0, 0)).snapCount + 1,
        initial_position := some (initSt ℕ (0, 0)).pos,
        reference_image := some (env8.subMin (env8.camera (initSt ℕ (0, 0)).snapCount)) }
      (1 / 10) 0 rfl rfl rfl
      (fun i hi => by
        show env8.measureDisp _ (env8.camera ((initSt ℕ (0, 0)).snapCount + 1 + i)) = (0, 0)
        simp only [env8, initSt, id]
        rw [if_neg (by omega), if_neg (by omega)])
      (by norm_num) (by norm_num) (by norm_num) (by norm_num)
  rw [hz]
  have key : ∀ t : St ℕ, t.initial_position = some (0, 0) → t.reference_image = some 0 →
      t.safe_travel_radius = 10000 → t.snapCount = 16 → t.progress = 15 →
      t.moves = [(0, 0), (1/5, 0), (2/5, 0), (4/5, 0), (8/5, 0), (16/5, 0), (32/5, 0),
        (64/5, 0), (128/5, 0), (256/5, 0), (512/5, 0), (1024/5, 0), (2048/5, 0),
        (4096/5, 0), (8192/5, 0), (16384/5, 0)] →
      t.hist = [0, 1, 2, 3, 4, 5, 6, 7, 8, 9, 10, 11, 12, 13, 14, 15] →
      run_search_loop env8 (25 - 15) (1 * (2 ^ (0 + 15) / 10)) (0 * (2 ^ (0 + 15) / 10))
        ((0 : ℚ), (0 : ℚ)) t = (.ok ((60 : ℚ), (0 : ℚ)), sAfin) := by
    intro t hip href hr hsnap hpr hmv hhs
    rw [show (25 - 15 : ℕ) = 9 + 1 from rfl]
    rw [run_search_loop_step env8 9 (1 * (2 ^ (0 + 15) / 10)) (0 * (2 ^ (0 + 15) / 10))
      ((0 : ℚ), (0 : ℚ)) t (0, 0) 0 hip href hr (by norm_num) (by norm_num)]
    rw [hsnap]
    rw [show (9 : ℕ) = 8 + 1 from rfl]
    rw [run_search_loop_break env8 8 ((1 * (2 ^ (0 + 15) / 10)) * 2)
      ((0 * (2 ^ (0 + 15) / 10)) * 2)
      ((0 : ℚ) * 2 + (env8.measureDisp 0 (env8.camera 16)).1,
       (0 : ℚ) * 2 + (env8.measureDisp 0 (env8.camera 16)).2) _ (by norm_num [env8])]
    rw [hip, href, hr, hpr, hmv, hhs]
    norm_num [env8, sAfin]
  exact key _ (by norm_num [initSt, env8]) (by norm_num [initSt, env8])
    (by norm_num [initSt, env8]) (by norm_num [initSt, env8]) (by norm_num [initSt, env8])
    (by norm_num [initSt, env8, List.range_succ]) (by norm_num [initSt, env8, List.range_succ])

/-- The state after the decreasing session's Y search: 21 progress
increments, stage at `(0, 3.2)`. -/
def s8b : St ℕ :=
  { pos := (0, 16 / 5), snapCount := 22,
    moves := [(0, 0), (1/5, 0), (2/5, 0), (4/5, 0), (8/5, 0), (16/5, 0), (32/5, 0),
      (64/5, 0), (128/5, 0), (256/5, 0), (512/5, 0), (1024/5, 0), (2048/5, 0),
      (4096/5, 0), (8192/5, 0), (16384/5, 0), (32768/5, 0),
      (0, 1/5), (0, 2/5), (0, 4/5), (0, 8/5), (0, 16/5)],
    progress := 21,
    hist := [0, 1, 2, 3, 4, 5, 6, 7, 8, 9, 10, 11, 12, 13, 14, 15, 16, 17, 18, 19, 20, 21],
    initial_position := some (0, 0), reference_image := some 0, safe_travel_radius := 10000 }

set_option maxRecDepth 8000 in
/-- The Y-axis doubling loop of the decreasing session: 4 zero-measure
iterations, then a 5th measuring `(60, 1/2)`, then the break. -/
theorem loop8Y :
    run_search_loop env8 25 0 (1 / 10) ((0 : ℚ), (0 : ℚ)) sAfin =
      (.ok ((60 : ℚ), (1 / 2 : ℚ)), s8b) := by
  have hz := loop_zero_run env8 ((0 : ℚ), (0 : ℚ)) 0 0 1 (by norm_num)
      4 0 25 sAfin 0 (1 / 10) rfl rfl rfl
      (fun i hi => by
        show env8.measureDisp 0 (env8.camera (sAfin.snapCount + i)) = (0, 0)
        simp only [env8, sAfin, id]
        rw [if_neg (by omega), if_neg (by omega)])
      (by norm_num) (by norm_num) (by norm_num) (by norm_num)
  rw [hz]
  have key : ∀ t : St ℕ, t.initial_position = some (0, 0) → t.reference_image = some 0 →
      t.safe_travel_radius = 10000 → t.snapCount = 21 → t.progress = 20 →
      t.moves = [(0, 0), (1/5, 0), (2/5, 0), (4/5, 0), (8/5, 0), (16/5, 0), (32/5, 0),
        (64/5, 0), (128/5, 0), (256/5, 0), (512/5, 0), (1024/5, 0), (2048/5, 0),
        (4096/5, 0), (8192/5, 0), (16384/5, 0), (32768/5, 0),
        (0, 1/5), (0, 2/5), (0, 4/5), (0, 8/5)] →
      t.hist = [0, 1, 2, 3, 4, 5, 6, 7, 8, 9, 10, 11, 12, 13, 14, 15, 16, 17, 18, 19, 20] →
      run_search_loop env8 (25 - 4) (0 * (2 ^ (0 + 4) / 10)) (1 * (2 ^ (0 + 4) / 10))
        ((0 : ℚ), (0 : ℚ)) t = (.ok ((60 : ℚ), (1 / 2 : ℚ)), s8b) := by
    intro t hip href hr hsnap hpr hmv hhs
    rw [show (25 - 4 : ℕ) = 20 + 1 from rfl]
    rw [run_search_loop_step env8 20 (0 * (2 ^ (0 + 4) / 10)) (1 * (2 ^ (0 + 4) / 10))
      ((0 : ℚ), (0 : ℚ)) t (0, 0) 0 hip href hr (by norm_num) (by norm_num)]
    rw [hsnap]
    rw [show (20 : ℕ) = 19 + 1 from rfl]
    rw [run_search_loop_break env8 19 ((0 * (2 ^ (0 + 4) / 10)) * 2)
      ((1 * (2 ^ (0 + 4) / 10)) * 2)
      ((0 : ℚ) * 2 + (env8.measureDisp 0 (env8.camera 21)).1,
       (0 : ℚ) * 2 + (env8.measureDisp 0 (env8.camera 21)).2) _ (by norm_num [env8])]
    rw [hip, href, hr, hpr, hmv, hhs]
    norm_num [env8, s8b]
  exact key _ (by norm_num [sAfin]) (by norm_num [sAfin]) (by norm_num [sAfin])
    (by norm_num [sAfin]) (by norm_num [sAfin])
    (by norm_num [sAfin, List.range_succ]) (by norm_num [sAfin, List.range_succ])

/-- The near-collinear first-approximation transform of the decreasing
session. -/
def mat8 : Mat3 := ⟨8192 / 75, -65536 / 5, 0, 0, 32 / 5, 0⟩

set_option maxRecDepth 8000 in
theorem affine8 :
    generate_affine_transform (firstApproxPairs (initSt ℕ (0, 0)).pos ((60 : ℚ), (0 : ℚ))
      sAfin.pos ((60 : ℚ), (1 / 2 : ℚ)) s8b.pos) = .ok mat8 := by
  norm_num [generate_affine_transform, firstApproxPairs, dictInsert, affineRows, lstsq,
    rrefQ, rrefGo, invQ, swapRowsQ, dotQ, colQ, transposeQ, matVecQ, matMulQ,
    List.range_succ, List.filter, initSt, sAfin, s8b, mat8, Prod.ext_iff]

theorem gfa_env8 :
    get_first_approx env8 (initSt ℕ (0, 0)) = (.ok mat8, s8b) := by
  rw [get_first_approx_unfold, run_search_eval, loop8X]
  dsimp only
  rw [run_search_eval, loop8Y]
  dsimp only
  rw [affine8]

/-- The final state of the decreasing session: the corner probe dies on
the safety check right after `progress = 20` was assigned on top of the
searches' 21 increments. -/
def s8fin : St ℕ :=
  { pos := (0, 16 / 5), snapCount := 22,
    moves := [(0, 0), (1/5, 0), (2/5, 0), (4/5, 0), (8/5, 0), (16/5, 0), (32/5, 0),
      (64/5, 0), (128/5, 0), (256/5, 0), (512/5, 0), (1024/5, 0), (2048/5, 0),
      (4096/5, 0), (8192/5, 0), (16384/5, 0), (32768/5, 0),
      (0, 1/5), (0, 2/5), (0, 4/5), (0, 8/5), (0, 16/5)],
    progress := 20,
    hist := [0, 1, 2, 3, 4, 5, 6, 7, 8, 9, 10, 11, 12, 13, 14, 15, 16, 17, 18, 19, 20, 21, 20],
    initial_position := some (0, 0), reference_image := some 0, safe_travel_radius := 10000 }

theorem run_calibration_env8 :
    run_calibration env8 (initSt ℕ (0, 0)) = (.error .calibrationFailed, s8fin) := by
  simp only [run_calibration, M_bind_apply]
  rw [gfa_env8]
  simp only [setProgress_apply, M_bind_apply, get_second_approx, second_approx_go,
    cornersList, liftExcept_apply]
  have key : ∀ t : St ℕ, t.initial_position = some (0, 0) → t.safe_travel_radius = 10000 →
      measure_corner env8 mat8 (-50, -50) t = (.error .calibrationFailed, t) :=
    fun t hip hr => measure_corner_abort env8 mat8 (-50, -50) t (0, 0) hip hr
      (by norm_num [mat8])
  rw [key { s8b with progress := 20, hist := s8b.hist ++ [(20 : ℤ)] }
    (by norm_num [s8b]) (by norm_num [s8b])]
  norm_num [s8b, s8fin]

theorem run_env8 : run env8 (initSt ℕ (0, 0)) = (.ok (), s8fin) := by
  simp only [run]
  rw [run_calibration_env8]

/-! ## A concrete successful session

The oracle measures `(60, 0)` at the second snap (the first X-search
image) and `(0, 60)` at the third (the first Y-search image), so both
searches break after a single iteration; the fitted transform is the
diagonal `1/300` scaling, the four corner probes land at `(±1/6, ±1/6)`,
and the run completes, restoring the stage to the origin. -/

/-- The oracle of the successful session. -/
def envOk : Env ℕ :=
  { camera := id, subMin := id,
    measureDisp := fun _ t =>
      if t = 1 then (60, 0) else if t = 2 then (0, 60) else (0, 0) }

/-- The state after the successful session's X search. -/
def sOk1 : St ℕ :=
  { pos := (1 / 5, 0), snapCount := 2, moves := [(0, 0), (1/5, 0)],
    progress := 1, hist := [0, 1],
    initial_position := some (0, 0), reference_image := some 0, safe_travel_radius := 10000 }

/-- The state after the successful session's Y search. -/
def sOk2 : St ℕ :=
  { pos := (0, 1 / 5), snapCount := 3, moves := [(0, 0), (1/5, 0), (0, 1/5)],
    progress := 2, hist := [0, 1, 2],
    initial_position := some (0, 0), reference_image := some 0, safe_travel_radius := 10000 }

/-- The X-axis doubling loop of the successful session: one iteration
measuring `(60, 0)`, then the break. -/
theorem loopOkX :
    run_search_loop envOk 25 (1 / 10) 0 ((0 : ℚ), (0 : ℚ))
      { initSt ℕ (0, 0) with
        pos := ((initSt ℕ (0, 0)).pos.1, (initSt ℕ (0, 0)).pos.2),
        moves := (initSt ℕ (0, 0)).moves ++ [((initSt ℕ (0, 0)).pos.1, (initSt ℕ (0, 0)).pos.2)],
        snapCount := (initSt ℕ (0, 0)).snapCount + 1,
        initial_position := some (initSt ℕ (0, 0)).pos,
        reference_image := some (envOk.subMin (envOk.camera (initSt ℕ (0, 0)).snapCount)) } =
    (.ok ((60 : ℚ), (0 : ℚ)), sOk1) := by
  have key : ∀ t : St ℕ, t.initial_position = some (0, 0) → t.reference_image = some 0 →
      t.safe_travel_radius = 10000 → t.snapCount = 1 → t.progress = 0 →
      t.moves = [(0, 0)] → t.hist = [0] →
      run_search_loop envOk 25 (1 / 10) 0 ((0 : ℚ), (0 : ℚ)) t =
        (.ok ((60 : ℚ), (0 : ℚ)), sOk1) := by
    intro t hip href hr hsnap hpr hmv hhs
    rw [show (25 : ℕ) = 24 + 1 from rfl]
    rw [run_search_loop_step envOk 24 (1 / 10) 0 ((0 : ℚ), (0 : ℚ)) t (0, 0) 0 hip href hr
      (by norm_num) (by norm_num)]
    rw [hsnap]
    rw [show (24 : ℕ) = 23 + 1 from rfl]
    rw [run_search_loop_break envOk 23 (1 / 10 * 2) (0 * 2)
      ((0 : ℚ) * 2 + (envOk.measureDisp 0 (envOk.camera 1)).1,
       (0 : ℚ) * 2 + (envOk.measureDisp 0 (envOk.camera 1)).2) _ (by norm_num [envOk])]
    rw [hip, href, hr, hpr, hmv, hhs]
    norm_num [envOk, sOk1]
  exact key _ (by norm_num [initSt, envOk]) (by norm_num [initSt, envOk])
    (by norm_num [initSt, envOk]) (by norm_num [initSt, envOk]) (by norm_num [initSt, envOk])
    (by norm_num [initSt, envOk]) (by norm_num [initSt, envOk])

/-- The Y-axis doubling loop of the successful session: one iteration
measuring `(0, 60)`, then the break. -/
theorem loopOkY :
    run_search_loop envOk 25 0 (1 / 10) ((0 : ℚ), (0 : ℚ)) sOk1 =
      (.ok ((0 : ℚ), (60 : ℚ)), sOk2) := by
  rw [show (25 : ℕ) = 24 + 1 from rfl]
  rw [run_search_loop_step envOk 24 0 (1 / 10) ((0 : ℚ), (0 : ℚ)) sOk1 (0, 0) 0
    (by norm_num [sOk1]) (by norm_num [sOk1]) (by norm_num [sOk1]) (by norm_num) (by norm_num)]
  rw [show (24 : ℕ) = 23 + 1 from rfl]
  rw [run_search_loop_break envOk 23 (0 * 2) (1 / 10 * 2)
    ((0 : ℚ) * 2 + (envOk.measureDisp 0 (envOk.camera sOk1.snapCount)).1,
     (0 : ℚ) * 2 + (envOk.measureDisp 0 (envOk.camera sOk1.snapCount)).2) _
    (by norm_num [envOk, sOk1])]
  norm_num [envOk, sOk1, sOk2]

/-- The diagonal `1/300` transform fitted by the successful session. -/
def matOk : Mat3 := ⟨1 / 300, 0, 0, 0, 1 / 300, 0⟩

set_option maxRecDepth 8000 in
theorem affineOk :
    generate_affine_transform (firstApproxPairs (initSt ℕ (0, 0)).pos ((60 : ℚ), (0 : ℚ))
      sOk1.pos ((0 : ℚ), (60 : ℚ)) sOk2.pos) = .ok matOk := by
  norm_num [generate_affine_transform, firstApproxPairs, dictInsert, affineRows, lstsq,
    rrefQ, rrefGo, invQ, swapRowsQ, dotQ, colQ, transposeQ, matVecQ, matMulQ,
    List.range_succ, List.filter, initSt, sOk1, sOk2, matOk, Prod.ext_iff]

theorem gfa_envOk :
    get_first_approx envOk (initSt ℕ (0, 0)) = (.ok matOk, sOk2) := by
  rw [get_first_approx_unfold, run_search_eval, loopOkX]
  dsimp only
  rw [run_search_eval, loopOkY]
  dsimp only
  rw [affineOk]

/-- The successful session's state right after `progress = 20`. -/
def sP20 : St ℕ :=
  { pos := (0, 1 / 5), snapCount := 3, moves := [(0, 0), (1/5, 0), (0, 1/5)],
    progress := 20, hist := [0, 1, 2, 20],
    initial_position := some (0, 0), reference_image := some 0, safe_travel_radius := 10000 }

/-- The successful session's state after the first corner probe. -/
def sC1 : St ℕ :=
  { pos := (-1/6, -1/6), snapCount := 4,
    moves := [(0, 0), (1/5, 0), (0, 1/5), (-1/6, -1/6)],
    progress := 21, hist := [0, 1, 2, 20, 21],
    initial_position := some (0, 0), reference_image := some 0, safe_travel_radius := 10000 }

/-- The successful session's state after the second corner probe. -/
def sC2 : St ℕ :=
  { pos := (-1/6, 1/6), snapCount := 5,
    moves := [(0, 0), (1/5, 0), (0, 1/5), (-1/6, -1/6), (-1/6, 1/6)],
    progress := 22, hist := [0, 1, 2, 20, 21, 22],
    initial_position := some (0, 0), reference_image := some 0, safe_travel_radius := 10000 }

/-- The successful session's state after the third corner probe. -/
def sC3 : St ℕ :=
  { pos := (1/6, 1/6), snapCount := 6,
    moves := [(0, 0), (1/5, 0), (0, 1/5), (-1/6, -1/6), (-1/6, 1/6), (1/6, 1/6)],
    progress := 23, hist := [0, 1, 2, 20, 21, 22, 23],
    initial_position := some (0, 0), reference_image := some 0, safe_travel_radius := 10000 }

/-- The successful session's state after the fourth corner probe. -/
def sC4 : St ℕ :=
  { pos := (1/6, -1/6), snapCount := 7,
    moves := [(0, 0), (1/5, 0), (0, 1/5), (-1/6, -1/6), (-1/6, 1/6), (1/6, 1/6), (1/6, -1/6)],
    progress := 24, hist := [0, 1, 2, 20, 21, 22, 23, 24],
    initial_position := some (0, 0), reference_image := some 0, safe_travel_radius := 10000 }

theorem mc1_envOk :
    measure_corner envOk matOk (-50, -50) sP20 =
      (.ok (((-50 : ℚ), (-50 : ℚ)), ((-1/6 : ℚ), (-1/6 : ℚ))), sC1) := by
  rw [measure_corner_ok envOk matOk (-50, -50) sP20 (0, 0) 0 (by norm_num [sP20])
    (by norm_num [sP20]) (by norm_num [sP20]) (by norm_num [matOk])]
  norm_num [envOk, matOk, sP20, sC1]

theorem mc2_envOk :
    measure_corner envOk matOk (-50, 50) sC1 =
      (.ok (((-50 : ℚ), (50 : ℚ)), ((-1/6 : ℚ), (1/6 : ℚ))), sC2) := by
  rw [measure_corner_ok envOk matOk (-50, 50) sC1 (0, 0) 0 (by norm_num [sC1])
    (by norm_num [sC1]) (by norm_num [sC1]) (by norm_num [matOk])]
  norm_num [envOk, matOk, sC1, sC2]

theorem mc3_envOk :
    measure_corner envOk matOk (50, 50) sC2 =
      (.ok (((50 : ℚ), (50 : ℚ)), ((1/6 : ℚ), (1/6 : ℚ))), sC3) := by
  rw [measure_corner_ok envOk matOk (50, 50) sC2 (0, 0) 0 (by norm_num [sC2])
    (by norm_num [sC2]) (by norm_num [sC2]) (by norm_num [matOk])]
  norm_num [envOk, matOk, sC2, sC3]

theorem mc4_envOk :
    measure_corner envOk matOk (50, -50) sC3 =
      (.ok (((50 : ℚ), (-50 : ℚ)), ((1/6 : ℚ), (-1/6 : ℚ))), sC4) := by
  rw [measure_corner_ok envOk matOk (50, -50) sC3 (0, 0) 0 (by norm_num [sC3])
    (by norm_num [sC3]) (by norm_num [sC3]) (by norm_num [matOk])]
  norm_num [envOk, matOk, sC3, sC4]

set_option maxRecDepth 8000 in
theorem gsa_envOk :
    get_second_approx envOk matOk sP20 = (.ok matOk, sC4) := by
  simp only [get_second_approx, second_approx_go, cornersList, M_bind_apply, M_pure_apply,
    liftExcept_apply]
  rw [mc1_envOk]
  dsimp only
  rw [mc2_envOk]
  dsimp only
  rw [mc3_envOk]
  dsimp only
  rw [mc4_envOk]
  dsimp only
  norm_num [generate_affine_transform, dictInsert, affineRows, lstsq,
    rrefQ, rrefGo, invQ, swapRowsQ, dotQ, colQ, transposeQ, matVecQ, matMulQ,
    List.range_succ, List.filter, matOk, Prod.ext_iff]

/-- The final state of the successful session: all 24 progress steps done
and the stage restored to the origin. -/
def sOkFin : St ℕ :=
  { pos := (0, 0), snapCount := 7,
    moves := [(0, 0), (1/5, 0), (0, 1/5), (-1/6, -1/6), (-1/6, 1/6), (1/6, 1/6), (1/6, -1/6),
      (0, 0)],
    progress := 24, hist := [0, 1, 2, 20, 21, 22, 23, 24],
    initial_position := some (0, 0), reference_image := some 0, safe_travel_radius := 10000 }

theorem run_calibration_envOk :
    run_calibration envOk (initSt ℕ (0, 0)) = (.ok matOk, sOkFin) := by
  simp only [run_calibration, M_bind_apply]
  rw [gfa_envOk]
  simp only [setProgress_apply, M_bind_apply]
  have hs : { sOk2 with progress := (20 : ℤ), hist := sOk2.hist ++ [(20 : ℤ)] } = sP20 := by
    norm_num [sOk2, sP20]
  rw [hs, gsa_envOk]
  norm_num [M_bind_apply, getInitial_apply, setXYPosition_apply, M_pure_apply, sC4, sOkFin]

theorem run_envOk : run envOk (initSt ℕ (0, 0)) = (.ok (), sOkFin) := by
  simp only [run]
  rw [run_calibration_envOk]

/-! ## State-invariant machinery for the controller

`presM Inv x` says the operation `x` preserves the state predicate `Inv`
along every execution path (normal return or raised exception), and
`histB x k` bounds by `k` the number of progress-counter assignments the
operation can perform. -/

/-- `x` preserves the state predicate `Inv`, whatever it returns. -/
def presM {Img α : Type} (Inv : St Img → Prop) (x : M Img α) : Prop :=
  ∀ s, Inv s → Inv ((x s).2)

theorem presM_bind {Img α β : Type} {Inv : St Img → Prop} {x : M Img α} {f : α → M Img β}
    (hx : presM Inv x) (hf : ∀ a, presM Inv (f a)) : presM Inv (x >>= f) := by
  intro s hs
  rw [M_bind_apply]
  rcases hxs : x s with ⟨r, s'⟩
  have h1 := hx s hs
  rw [hxs] at h1
  cases r with
  | ok a => exact hf a s' h1
  | error e => exact h1

theorem presM_pure {Img α : Type} (Inv : St Img → Prop) (a : α) :
    presM Inv (pure a : M Img α) :=
  fun _ hs => hs

theorem presM_of_fix {Img α : Type} {Inv : St Img → Prop} {x : M Img α}
    (hx : ∀ s, (x s).2 = s) : presM Inv x := by
  intro s hs
  rw [hx]
  exact hs

theorem presM_ite {Img α : Type} {Inv : St Img → Prop} (c : Prop) [Decidable c]
    {x y : M Img α} (hx : presM Inv x) (hy : presM Inv y) :
    presM Inv (if c then x else y) := by
  by_cases hc : c
  · rw [if_pos hc]; exact hx
  · rw [if_neg hc]; exact hy

theorem getInitial_snd {Img : Type} (s : St Img) :
    ((getInitial : M Img (ℚ × ℚ)) s).2 = s := by
  obtain ⟨pos0, sc0, mv0, pr0, hs0, ip0, ri0, r0⟩ := s
  cases ip0 <;> rfl

theorem getReference_snd {Img : Type} (s : St Img) :
    ((getReference : M Img Img) s).2 = s := by
  obtain ⟨pos0, sc0, mv0, pr0, hs0, ip0, ri0, r0⟩ := s
  cases ri0 <;> rfl

/-! ### The safety invariant (claims C1 and C2)

The session's recorded initial position and safety radius, together with
the guarantee that every commanded move so far lies within the radius of
the initial position (stated in squared form, the radius being
nonnegative in every reachable state). -/

/-- The safety invariant of a session with initial position `p` and
safe-travel radius `r`. -/
def C1Inv {Img : Type} (p : ℚ × ℚ) (r : ℚ) (s : St Img) : Prop :=
  s.initial_position = some p ∧ s.safe_travel_radius = r ∧
    ∀ m ∈ s.moves, dist2 p m ≤ r ^ 2

theorem C1Inv_snap_image_at {Img : Type} (env : Env Img) (p : ℚ × ℚ) (r : ℚ) (x y : ℚ) :
    presM (C1Inv p r) (snap_image_at env x y) := by
  intro s hs
  obtain ⟨pos0, sc0, mv0, pr0, hs0, ip0, ri0, r0⟩ := s
  obtain ⟨hip, hr, hm⟩ := hs
  simp only at hip hr hm
  subst hip
  simp only [snap_image_at, M_bind_apply, getInitial_apply, getRadius_apply]
  by_cases hc : (p.1 - x) ^ 2 + (p.2 - y) ^ 2 > r0 ^ 2
  · rw [if_pos hc]
    exact ⟨rfl, hr, hm⟩
  · rw [if_neg hc]
    simp only [M_bind_apply, setXYPosition_apply, snap_apply]
    refine ⟨rfl, hr, ?_⟩
    intro m hmem
    rcases List.mem_append.1 hmem with h1 | h2
    · exact hm m h1
    · rw [List.mem_singleton] at h2
      subst h2
      push_neg at hc
      rw [hr] at hc
      simp only [dist2]
      exact hc

theorem C1Inv_loop {Img : Type} (env : Env Img) (p : ℚ × ℚ) (r : ℚ) :
    ∀ (n : ℕ) (dx dy : ℚ) (d : ℚ × ℚ), presM (C1Inv p r) (run_search_loop env n dx dy d) := by
  intro n
  induction n with
  | zero => intro dx dy d; exact presM_pure _ _
  | succ n ih =>
    intro dx dy d
    simp only [run_search_loop]
    refine presM_ite _ (presM_pure _ _) ?_
    exact presM_bind (presM_of_fix getInitial_snd)
      (fun initial => presM_bind (C1Inv_snap_image_at env p r _ _)
        (fun img => presM_bind (presM_of_fix getReference_snd)
          (fun ref => presM_bind (presM_pure _ _)
            (fun dc => presM_bind (fun s hs => hs) (fun _ => ih _ _ _)))))

theorem C1Inv_run_search {Img : Type} (env : Env Img) (p : ℚ × ℚ) (r : ℚ)
    (dxi dyi : ℚ) (d0 : ℚ × ℚ) : presM (C1Inv p r) (run_search env dxi dyi d0) :=
  presM_bind (C1Inv_loop env p r 25 dxi dyi d0)
    (fun d => presM_bind (presM_of_fix fun _ => rfl) (fun sp => presM_pure _ _))

theorem C1Inv_measure_corner {Img : Type} (env : Env Img) (p : ℚ × ℚ) (r : ℚ)
    (fa : Mat3) (c : ℚ × ℚ) : presM (C1Inv p r) (measure_corner env fa c) :=
  presM_bind (C1Inv_snap_image_at env p r _ _)
    (fun img => presM_bind (presM_of_fix getReference_snd)
      (fun ref => presM_bind (presM_pure _ _)
        (fun dc => presM_bind (presM_of_fix fun _ => rfl)
          (fun sp => presM_bind (fun s hs => hs) (fun _ => presM_pure _ _)))))

theorem C1Inv_sag {Img : Type} (env : Env Img) (p : ℚ × ℚ) (r : ℚ) (fa : Mat3) :
    ∀ (cs : List (ℚ × ℚ)) (pp : List ((ℚ × ℚ) × (ℚ × ℚ))),
      presM (C1Inv p r) (second_approx_go env fa cs pp) := by
  intro cs
  induction cs with
  | nil => intro pp; exact presM_pure _ _
  | cons c cs ih =>
    intro pp
    simp only [second_approx_go]
    exact presM_bind (C1Inv_measure_corner env p r fa c) (fun rr => ih _)

theorem C1Inv_gsa {Img : Type} (env : Env Img) (p : ℚ × ℚ) (r : ℚ) (fa : Mat3) :
    presM (C1Inv p r) (get_second_approx env fa) :=
  presM_bind (C1Inv_sag env p r fa cornersList [])
    (fun pp => presM_of_fix fun _ => rfl)

theorem C1Inv_gfa_snd {Img : Type} (env : Env Img) (s : St Img)
    (hr : s.safe_travel_radius = 10000)
    (hm : ∀ m ∈ s.moves, dist2 s.pos m ≤ 10000 ^ 2) :
    C1Inv s.pos 10000 ((get_first_approx env s).2) := by
  rw [get_first_approx_unfold]
  have h1 : C1Inv s.pos 10000
      { s with pos := (s.pos.1, s.pos.2),
               moves := s.moves ++ [(s.pos.1, s.pos.2)],
               snapCount := s.snapCount + 1,
               initial_position := some s.pos,
               reference_image := some (env.subMin (env.camera s.snapCount)) } := by
    refine ⟨rfl, hr, ?_⟩
    intro m hmem
    rcases List.mem_append.1 hmem with ha | hb
    · exact hm m ha
    · rw [List.mem_singleton] at hb
      subst hb
      norm_num [dist2]
  rcases hx : run_search env (1 / 10) 0 (0, 0)
      { s with pos := (s.pos.1, s.pos.2),
               moves := s.moves ++ [(s.pos.1, s.pos.2)],
               snapCount := s.snapCount + 1,
               initial_position := some s.pos,
               reference_image := some (env.subMin (env.camera s.snapCount)) } with ⟨rx, s'⟩
  have h2 : C1Inv s.pos 10000 s' := by
    have h := C1Inv_run_search env s.pos 10000 (1 / 10) 0 (0, 0) _ h1
    rw [hx] at h
    exact h
  cases rx with
  | error e => exact h2
  | ok rx =>
    dsimp only
    rcases hy : run_search env 0 (1 / 10) (0, 0) s' with ⟨ry, s''⟩
    have h3 : C1Inv s.pos 10000 s'' := by
      have h := C1Inv_run_search env s.pos 10000 0 (1 / 10) (0, 0) s' h2
      rw [hy] at h
      exact h
    cases ry with
    | error e => exact h3
    | ok ry => exact h3

theorem C1Inv_run_calibration {Img : Type} (env : Env Img) (p0 : ℚ × ℚ) :
    C1Inv p0 10000 ((run_calibration env (initSt Img p0)).2) := by
  have hgfa : C1Inv p0 10000 ((get_first_approx env (initSt Img p0)).2) :=
    C1Inv_gfa_snd env (initSt Img p0) rfl (by intro m hm2; simp [initSt] at hm2)
  simp only [run_calibration, M_bind_apply]
  rcases hg : get_first_approx env (initSt Img p0) with ⟨rg, s1⟩
  rw [hg] at hgfa
  cases rg with
  | error e => exact hgfa
  | ok fa =>
    dsimp only
    simp only [setProgress_apply, M_bind_apply]
    have h2 : C1Inv p0 10000 { s1 with progress := (20 : ℤ), hist := s1.hist ++ [(20 : ℤ)] } :=
      hgfa
    rcases hq : get_second_approx env fa
        { s1 with progress := (20 : ℤ), hist := s1.hist ++ [(20 : ℤ)] } with ⟨rq, s3⟩
    have h3 : C1Inv p0 10000 s3 := by
      have h := C1Inv_gsa env p0 10000 fa _ h2
      rw [hq] at h
      exact h
    cases rq with
    | error e => exact h3
    | ok m2 =>
      dsimp only
      simp only [M_bind_apply, getInitial_apply]
      rw [h3.1]
      dsimp only
      simp only [setXYPosition_apply, M_bind_apply, M_pure_apply]
      refine ⟨h3.1, h3.2.1, ?_⟩
      intro m hmem
      rcases List.mem_append.1 hmem with ha | hb
      · exact h3.2.2 m ha
      · rw [List.mem_singleton] at hb
        subst hb
        norm_num [dist2]

theorem run_snd {Img : Type} (env : Env Img) (s : St Img) :
    (run env s).2 = (run_calibration env s).2 := by
  simp only [run]
  rcases h : run_calibration env s with ⟨r, s'⟩
  cases r with
  | ok a => rfl
  | error e => cases e <;> rfl

/-- A successful `run_calibration` from a freshly initialised session ends
with the stage back at the starting position (the explicit
`setXYPosition(*initial_position)` before the successful return). -/
theorem run_calibration_ok_pos {Img : Type} (env : Env Img) (p0 : ℚ × ℚ) (m : Mat3)
    (s' : St Img) (h : run_calibration env (initSt Img p0) = (.ok m, s')) : s'.pos = p0 := by
  have hgfa : C1Inv p0 10000 ((get_first_approx env (initSt Img p0)).2) :=
    C1Inv_gfa_snd env (initSt Img p0) rfl (by intro m2 hm2; simp [initSt] at hm2)
  revert h
  simp only [run_calibration, M_bind_apply]
  rcases hg : get_first_approx env (initSt Img p0) with ⟨rg, s1⟩
  rw [hg] at hgfa
  cases rg with
  | error e => intro h; simp at h
  | ok fa =>
    dsimp only
    simp only [setProgress_apply, M_bind_apply]
    have h2 : C1Inv p0 10000 { s1 with progress := (20 : ℤ), hist := s1.hist ++ [(20 : ℤ)] } :=
      hgfa
    rcases hq : get_second_approx env fa
        { s1 with progress := (20 : ℤ), hist := s1.hist ++ [(20 : ℤ)] } with ⟨rq, s3⟩
    have h3 : C1Inv p0 10000 s3 := by
      have hh := C1Inv_gsa env p0 10000 fa _ h2
      rw [hq] at hh
      exact hh
    cases rq with
    | error e => intro h; simp at h
    | ok m2 =>
      dsimp only
      simp only [M_bind_apply, getInitial_apply]
      rw [h3.1]
      dsimp only
      simp only [setXYPosition_apply, M_bind_apply, M_pure_apply]
      intro h
      injection h with h1 h2'
      rw [← h2']

/-! ### The progress-assignment bound (claim C4) -/

/-- `x` appends at most `k` entries to the progress history. -/
def histB {Img α : Type} (x : M Img α) (k : ℕ) : Prop :=
  ∀ s, ((x s).2).hist.length ≤ s.hist.length + k

theorem histB_bind {Img α β : Type} {x : M Img α} {f : α → M Img β} {a b : ℕ}
    (hx : histB x a) (hf : ∀ v, histB (f v) b) : histB (x >>= f) (a + b) := by
  intro s
  rw [M_bind_apply]
  rcases hxs : x s with ⟨r, s'⟩
  have h1 := hx s
  rw [hxs] at h1
  cases r with
  | ok v =>
    have h2 := hf v s'
    dsimp only at h1 ⊢
    omega
  | error e =>
    dsimp only at h1 ⊢
    omega

theorem histB_mono {Img α : Type} {x : M Img α} {a b : ℕ} (hx : histB x a) (hab : a ≤ b) :
    histB x b := fun s => le_trans (hx s) (by omega)

theorem histB_pure {Img α : Type} (v : α) : histB (pure v : M Img α) 0 :=
  fun s => Nat.le_add_right s.hist.length 0

theorem histB_of_fix {Img α : Type} {x : M Img α} (hx : ∀ s, (x s).2 = s) : histB x 0 :=
  fun s => by rw [hx]; exact Nat.le_add_right s.hist.length 0

theorem histB_ite {Img α : Type} (c : Prop) [Decidable c] {x y : M Img α} {k : ℕ}
    (hx : histB x k) (hy : histB y k) : histB (if c then x else y) k := by
  by_cases hc : c
  · rw [if_pos hc]; exact hx
  · rw [if_neg hc]; exact hy

theorem histB_setXY {Img : Type} (x y : ℚ) : histB (setXYPosition x y : M Img Unit) 0 :=
  fun s => by simp [setXYPosition_apply]

theorem histB_snap {Img : Type} (env : Env Img) : histB (snap env : M Img Img) 0 :=
  fun s => by simp [snap_apply]

theorem histB_inc {Img : Type} : histB (incProgress : M Img Unit) 1 :=
  fun s => by simp [incProgress_apply]

theorem histB_snap_image_at {Img : Type} (env : Env Img) (x y : ℚ) :
    histB (snap_image_at env x y : M Img Img) 0 := by
  have hbranch : histB ((setXYPosition x y : M Img Unit) >>= fun _ => snap env) 0 :=
    histB_bind (histB_setXY x y) (fun _ => histB_snap env)
  have hcont : ∀ ip : ℚ × ℚ, histB ((getRadius : M Img ℚ) >>= fun r =>
      if (ip.1 - x) ^ 2 + (ip.2 - y) ^ 2 > r ^ 2 then throwPy .calibrationFailed
      else (setXYPosition x y : M Img Unit) >>= fun _ => snap env) 0 := by
    intro ip
    exact histB_bind (histB_of_fix fun _ => rfl)
      (fun r => histB_ite _ (histB_of_fix fun _ => rfl) hbranch)
  exact histB_bind (histB_of_fix getInitial_snd) hcont

theorem histB_loop {Img : Type} (env : Env Img) :
    ∀ (n : ℕ) (dx dy : ℚ) (d : ℚ × ℚ), histB (run_search_loop env n dx dy d) n := by
  intro n
  induction n with
  | zero => intro dx dy d; exact histB_pure d
  | succ n ih =>
    intro dx dy d
    simp only [run_search_loop]
    refine histB_ite _ (histB_mono (histB_pure d) (by omega)) ?_
    refine histB_mono (histB_bind (histB_of_fix getInitial_snd)
      (fun initial => histB_bind (histB_snap_image_at env _ _)
        (fun img => histB_bind (histB_of_fix getReference_snd)
          (fun ref => histB_bind (histB_pure _)
            (fun dc => histB_bind histB_inc (fun _ => ih _ _ _)))))) (by omega)

theorem histB_run_search {Img : Type} (env : Env Img) (dxi dyi : ℚ) (d0 : ℚ × ℚ) :
    histB (run_search env dxi dyi d0 : M Img ((ℚ × ℚ) × (ℚ × ℚ))) 25 :=
  histB_mono (histB_bind (histB_loop env 25 dxi dyi d0)
    (fun d => histB_bind (histB_of_fix fun _ => rfl) (fun sp => histB_pure _))) (by omega)

/-! ### The progress-history shape (claim C8)

Every assignment to `self.progress` is either an increment or the literal
phase-transition assignment `self.progress = 20`; the ghost history
therefore satisfies the chain relation `a ≤ b ∨ b = 20` between
consecutive values, and its last entry is the current counter. -/

/-- The progress-history invariant. -/
def HistInv {Img : Type} (s : St Img) : Prop :=
  List.Chain' (fun a b : ℤ => a ≤ b ∨ b = 20) s.hist ∧ s.hist.getLast? = some s.progress

theorem chain_concat {l : List ℤ} {x v : ℤ}
    (hc : List.Chain' (fun a b : ℤ => a ≤ b ∨ b = 20) l) (hl : l.getLast? = some x)
    (hxv : x ≤ v ∨ v = 20) :
    List.Chain' (fun a b : ℤ => a ≤ b ∨ b = 20) (l ++ [v]) := by
  rw [List.chain'_append]
  refine ⟨hc, List.chain'_singleton v, ?_⟩
  intro a ha b hb
  rw [hl] at ha
  simp only [Option.mem_some_iff] at ha
  simp only [List.head?_cons, Option.mem_some_iff] at hb
  subst ha
  subst hb
  exact hxv

theorem HistInv_inc {Img : Type} : presM (@HistInv Img) incProgress := by
  intro s hs
  obtain ⟨hc, hl⟩ := hs
  refine ⟨chain_concat hc hl (Or.inl (by omega)), ?_⟩
  exact List.getLast?_concat _

theorem HistInv_setProgress20 {Img : Type} :
    presM (@HistInv Img) (setProgress 20) := by
  intro s hs
  obtain ⟨hc, hl⟩ := hs
  refine ⟨chain_concat hc hl (Or.inr rfl), ?_⟩
  exact List.getLast?_concat _

theorem HistInv_snap_image_at {Img : Type} (env : Env Img) (x y : ℚ) :
    presM HistInv (snap_image_at env x y) :=
  presM_bind (presM_of_fix getInitial_snd)
    (fun ip => presM_bind (presM_of_fix fun _ => rfl)
      (fun r => presM_ite _ (presM_of_fix fun _ => rfl)
        (presM_bind (fun _ hs => hs) (fun _ => fun _ hs => hs))))

theorem HistInv_loop {Img : Type} (env : Env Img) :
    ∀ (n : ℕ) (dx dy : ℚ) (d : ℚ × ℚ), presM HistInv (run_search_loop env n dx dy d) := by
  intro n
  induction n with
  | zero => intro dx dy d; exact presM_pure _ _
  | succ n ih =>
    intro dx dy d
    simp only [run_search_loop]
    refine presM_ite _ (presM_pure _ _) ?_
    exact presM_bind (presM_of_fix getInitial_snd)
      (fun initial => presM_bind (HistInv_snap_image_at env _ _)
        (fun img => presM_bind (presM_of_fix getReference_snd)
          (fun ref => presM_bind (presM_pure _ _)
            (fun dc => presM_bind HistInv_inc (fun _ => ih _ _ _)))))

theorem HistInv_run_search {Img : Type} (env : Env Img) (dxi dyi : ℚ) (d0 : ℚ × ℚ) :
    presM HistInv (run_search env dxi dyi d0) :=
  presM_bind (HistInv_loop env 25 dxi dyi d0)
    (fun d => presM_bind (presM_of_fix fun _ => rfl) (fun sp => presM_pure _ _))

theorem HistInv_measure_corner {Img : Type} (env : Env Img) (fa : Mat3) (c : ℚ × ℚ) :
    presM HistInv (measure_corner env fa c) :=
  presM_bind (HistInv_snap_image_at env _ _)
    (fun img => presM_bind (presM_of_fix getReference_snd)
      (fun ref => presM_bind (presM_pure _ _)
        (fun dc => presM_bind (presM_of_fix fun _ => rfl)
          (fun sp => presM_bind HistInv_inc (fun _ => presM_pure _ _)))))

theorem HistInv_sag {Img : Type} (env : Env Img) (fa : Mat3) :
    ∀ (cs : List (ℚ × ℚ)) (pp : List ((ℚ × ℚ) × (ℚ × ℚ))),
      presM HistInv (second_approx_go env fa cs pp) := by
  intro cs
  induction cs with
  | nil => intro pp; exact presM_pure _ _
  | cons c cs ih =>
    intro pp
    simp only [second_approx_go]
    exact presM_bind (HistInv_measure_corner env fa c) (fun rr => ih _)

theorem HistInv_gsa {Img : Type} (env : Env Img) (fa : Mat3) :
    presM HistInv (get_second_approx env fa) :=
  presM_bind (HistInv_sag env fa cornersList []) (fun pp => presM_of_fix fun _ => rfl)

theorem HistInv_gfa {Img : Type} (env : Env Img) :
    presM HistInv (get_first_approx env) :=
  presM_bind (presM_of_fix fun _ => rfl)
    (fun p => presM_bind (fun _ hs => hs)
      (fun _ => presM_bind (presM_of_fix getInitial_snd)
        (fun initial => presM_bind (HistInv_snap_image_at env _ _)
          (fun base => presM_bind (fun _ hs => hs)
            (fun _ => presM_bind (presM_of_fix getReference_snd)
              (fun ref => presM_bind (fun _ hs => hs)
                (fun _ => presM_bind (HistInv_run_search env _ _ _)
                  (fun rx => presM_bind (HistInv_run_search env _ _ _)
                    (fun ry => presM_of_fix fun _ => rfl)))))))))

theorem HistInv_run_calibration {Img : Type} (env : Env Img) :
    presM HistInv (run_calibration env) :=
  presM_bind (HistInv_gfa env)
    (fun fa => presM_bind HistInv_setProgress20
      (fun _ => presM_bind (HistInv_gsa env fa)
        (fun sa => presM_bind (presM_of_fix getInitial_snd)
          (fun initial => presM_bind (fun _ hs => hs)
            (fun _ => presM_pure _ _)))))

/-! ## Claims C5 and C9: the subpixel refinement -/


/-- If the center sample dominates its two neighbours and the parabola is
nondegenerate, the three-point parabolic offset is at most half a bin. -/
theorem parabolic_offset_le_half {α : Type*} [LinearOrderedField α]
    {l c r : α} (hl : l ≤ c) (hr : r ≤ c) (hd : 2 * c - l - r ≠ 0) :
    |(l - r) / (2 * (2 * c - l - r))| ≤ 1 / 2 := by
  have hd0 : 0 < 2 * c - l - r := by
    rcases lt_or_eq_of_le (by linarith : (0 : α) ≤ 2 * c - l - r) with h | h
    · exact h
    · exact absurd h.symm hd
  have habs : |l - r| ≤ 2 * c - l - r := by
    rw [abs_le]
    constructor <;> linarith
  have h2d : 0 < 2 * (2 * c - l - r) := by linarith
  rw [abs_div, abs_of_pos h2d]
  rw [div_le_iff₀ h2d]
  calc |l - r| ≤ 2 * c - l - r := habs
    _ = 1 / 2 * (2 * (2 * c - l - r)) := by ring

/-- C5: for every real-valued correlation-magnitude array and every peak
index, the per-axis subpixel offset computed by `parabolic_subpixel`
equals `(left - right) / (2*(2*center - left - right))` when the peak is
strictly interior along that axis and the denominator is nonzero, and `0`
in every other case (boundary peak or zero denominator); and the final
shift returned by the peak-processing stage of `phase_correlate` is the
integer-peak offset plus this per-axis correction. -/
theorem C5_subpixel_formula {α : Type*} [LinearOrderedField α] {h w : ℕ}
    [NeZero h] [NeZero w] (corr : Fin h → Fin w → α) (peak : Fin h × Fin w) :
    parabolic_subpixel corr peak = subpixelSpec corr peak ∧
    (pc_post corr).1 =
      (((((argmax2 corr).2.val : ℤ) - (w / 2 : ℕ) : ℤ) : α) +
          (parabolic_subpixel corr (argmax2 corr)).2,
       ((((argmax2 corr).1.val : ℤ) - (h / 2 : ℕ) : ℤ) : α) +
          (parabolic_subpixel corr (argmax2 corr)).1) := by
  constructor
  · have key : ∀ x l r_ : α, (2 * (2 * x - l - r_) ≠ 0) = (2 * x - l - r_ ≠ 0) := by
      intro x l r_
      apply propext
      constructor
      · intro hne hc
        exact hne (by rw [hc, mul_zero])
      · intro hne
        exact mul_ne_zero two_ne_zero hne
    unfold parabolic_subpixel subpixelSpec
    simp only [key]
  · rfl

/-- C9: at any global maximum of the correlation-magnitude array (in
particular at the index chosen by the peak search), each per-axis offset
returned by `parabolic_subpixel` has absolute value at most `1/2`, so the
final estimated shift differs from the integer-peak offset by at most half
a pixel along each axis. -/
theorem C9_subpixel_bounded {α : Type*} [LinearOrderedField α] {h w : ℕ}
    [NeZero h] [NeZero w] (c : Fin h → Fin w → α) (p : Fin h × Fin w)
    (hmax : ∀ q : Fin h × Fin w, c q.1 q.2 ≤ c p.1 p.2) :
    |(parabolic_subpixel c p).1| ≤ 1 / 2 ∧ |(parabolic_subpixel c p).2| ≤ 1 / 2 ∧
    |(pc_post c).1.1 - ((((argmax2 c).2.val : ℤ) - (w / 2 : ℕ) : ℤ) : α)| ≤ 1 / 2 ∧
    |(pc_post c).1.2 - ((((argmax2 c).1.val : ℤ) - (h / 2 : ℕ) : ℤ) : α)| ≤ 1 / 2 := by
  have main : ∀ (q : Fin h × Fin w), (∀ t : Fin h × Fin w, c t.1 t.2 ≤ c q.1 q.2) →
      |(parabolic_subpixel c q).1| ≤ 1 / 2 ∧ |(parabolic_subpixel c q).2| ≤ 1 / 2 := by
    intro q hq
    unfold parabolic_subpixel
    dsimp only
    constructor
    · split_ifs with h1 h2
      · exact parabolic_offset_le_half
          (hq (⟨q.1.val - 1, by omega⟩, q.2))
          (hq (⟨q.1.val + 1, by have := q.1.isLt; omega⟩, q.2)) h2
      · norm_num
      · norm_num
    · split_ifs with h1 h2
      · exact parabolic_offset_le_half
          (hq (q.1, ⟨q.2.val - 1, by omega⟩))
          (hq (q.1, ⟨q.2.val + 1, by have := q.2.isLt; omega⟩)) h2
      · norm_num
      · norm_num
  obtain ⟨hy, hx⟩ := main p hmax
  have hargmax : ∀ t : Fin h × Fin w, c t.1 t.2 ≤ c (argmax2 c).1 (argmax2 c).2 :=
    fun t => argmax2_isMax c t
  obtain ⟨hy', hx'⟩ := main (argmax2 c) hargmax
  refine ⟨hy, hx, ?_, ?_⟩
  · show |((((argmax2 c).2.val : ℤ) - (w / 2 : ℕ) : ℤ) : α) +
      (parabolic_subpixel c (argmax2 c)).2 - _| ≤ 1 / 2
    rw [add_sub_cancel_left]
    exact hx'
  · show |((((argmax2 c).1.val : ℤ) - (h / 2 : ℕ) : ℤ) : α) +
      (parabolic_subpixel c (argmax2 c)).1 - _| ≤ 1 / 2
    rw [add_sub_cancel_left]
    exact hy'

/-- A small concrete correlation surface with its global maximum at the
center bin `(1, 1)`. -/
def c9ex : Fin 3 → Fin 3 → ℚ := fun i j => if i = 1 then (if j = 1 then 3 else 1) else 0

set_option maxRecDepth 8000 in
/-- Witness for C5 at a concrete surface and peak. -/
theorem C5_subpixel_formula_witness :
    parabolic_subpixel c9ex ((1 : Fin 3), (1 : Fin 3)) = subpixelSpec c9ex (1, 1) ∧
    (pc_post c9ex).1 =
      (((((argmax2 c9ex).2.val : ℤ) - (3 / 2 : ℕ) : ℤ) : ℚ) +
          (parabolic_subpixel c9ex (argmax2 c9ex)).2,
       ((((argmax2 c9ex).1.val : ℤ) - (3 / 2 : ℕ) : ℤ) : ℚ) +
          (parabolic_subpixel c9ex (argmax2 c9ex)).1) :=
  C5_subpixel_formula c9ex (1, 1)

set_option maxRecDepth 8000 in
/-- Witness for C9 at a concrete surface and peak. -/
theorem C9_subpixel_bounded_witness :
    |(parabolic_subpixel c9ex (1, 1)).1| ≤ 1 / 2 ∧
    |(parabolic_subpixel c9ex (1, 1)).2| ≤ 1 / 2 ∧
    |(pc_post c9ex).1.1 - ((((argmax2 c9ex).2.val : ℤ) - (3 / 2 : ℕ) : ℤ) : ℚ)| ≤ 1 / 2 ∧
    |(pc_post c9ex).1.2 - ((((argmax2 c9ex).1.val : ℤ) - (3 / 2 : ℕ) : ℤ) : ℚ)| ≤ 1 / 2 :=
  C9_subpixel_bounded c9ex (1, 1) (by
    intro q
    obtain ⟨qi, qj⟩ := q
    fin_cases qi <;> fin_cases qj <;> norm_num [c9ex, Fin.ext_iff])

/-! ## Claims C6 and C10: the affine fit and its dict input -/

/-- After `d[k] = v`, the key `k` is present. -/
theorem dictInsert_hasKey {K V : Type} [DecidableEq K] (d : List (K × V)) (k : K) (v : V) :
    ((dictInsert d k v).any fun p => p.1 = k) = true := by
  unfold dictInsert
  split_ifs with hk
  · rw [List.any_eq_true] at hk ⊢
    obtain ⟨p, hp, hpk⟩ := hk
    refine ⟨(k, v), List.mem_map.mpr ⟨p, hp, ?_⟩, by simp⟩
    simp only [decide_eq_true_eq] at hpk
    rw [if_pos hpk]
  · simp

/-- C6 counterexample: `generate_affine_transform` raises nothing on a
single-pair input — it returns an affine transform (the minimum-norm
least-squares solution) instead of failing with `UnderdeterminedSystem`.
The source contains no point-count or rank-deficiency check at all. -/
theorem C6_counterexample_single_pair :
    (generate_affine_transform [((1, 2), (3, 4))]).isOk = true := rfl

/-- C6 (amended): `generate_affine_transform` performs no pair-count or
rank check: it returns a transform for every nonempty input — including
fewer than 3 pairs and 3+ collinear pairs — and fails only on an empty
input, where `np.linalg.lstsq` rejects the non-2-D empty array. -/
theorem C6_amended_no_rank_check (pairs : List ((ℚ × ℚ) × (ℚ × ℚ))) :
    (pairs ≠ [] → (generate_affine_transform pairs).isOk = true) ∧
    generate_affine_transform [] = .error .linAlgErr := by
  constructor
  · intro hne
    unfold generate_affine_transform
    rw [if_neg (by simpa [List.isEmpty_iff] using hne)]
    rfl
  · rfl

/-- Witness for the amended C6 at a concrete collinear 3-pair input. -/
theorem C6_amended_no_rank_check_witness :
    (generate_affine_transform
      [((0, 0), (0, 0)), ((1, 1), (1, 1)), ((2, 2), (2, 2))]).isOk = true :=
  (C6_amended_no_rank_check _).1 (by simp)

/-- C10: the affine-fit input is a dict keyed by pixel displacement, so a
later correspondence point with exactly the same displacement replaces
the earlier one and the fit sees only one of them; in particular, if the
X-axis search returns accumulated displacement `(0.0, 0.0)`, its point
overwrites the origin pair of `get_first_approx` and the fit's system has
only two rows (fewer than three pairs), silently. -/
theorem C10_dict_key_collapse
    (d : List ((ℚ × ℚ) × (ℚ × ℚ))) (k v1 v2 : ℚ × ℚ) (hv : v1 ≠ v2)
    (init posX dispY posY : ℚ × ℚ) (hY : dispY ≠ (0, 0)) :
    ((dictInsert (dictInsert d k v1) k v2).length = (dictInsert d k v1).length ∧
      (k, v2) ∈ dictInsert (dictInsert d k v1) k v2 ∧
      (k, v1) ∉ dictInsert (dictInsert d k v1) k v2) ∧
    (firstApproxPairs init (0, 0) posX dispY posY = [((0, 0), posX), (dispY, posY)] ∧
      (affineRows (firstApproxPairs init (0, 0) posX dispY posY)).length = 2) := by
  constructor
  · have hkey := dictInsert_hasKey d k v1
    constructor
    · conv_lhs => rw [dictInsert, if_pos hkey]
      rw [List.length_map]
    constructor
    · conv => rw [dictInsert, if_pos hkey]
      rw [List.any_eq_true] at hkey
      obtain ⟨p, hp, hpk⟩ := hkey
      simp only [decide_eq_true_eq] at hpk
      exact List.mem_map.mpr ⟨p, hp, by rw [if_pos hpk]⟩
    · conv => rw [dictInsert, if_pos hkey]
      intro hmem
      obtain ⟨p, _, hpe⟩ := List.mem_map.mp hmem
      by_cases hpk : p.1 = k
      · rw [if_pos hpk] at hpe
        exact hv (congrArg Prod.snd hpe).symm
      · rw [if_neg hpk] at hpe
        exact hpk (congrArg Prod.fst hpe)
  · have step1 : dictInsert ([] : List ((ℚ × ℚ) × (ℚ × ℚ))) (0, 0) init =
        [((0, 0), init)] := by
      unfold dictInsert
      simp
    have step2 : dictInsert [((0, 0), init)] ((0 : ℚ), (0 : ℚ)) posX =
        [((0, 0), posX)] := by
      unfold dictInsert
      simp
    have step3 : dictInsert [((0, 0), posX)] dispY posY =
        [((0, 0), posX), (dispY, posY)] := by
      unfold dictInsert
      rw [if_neg (by simpa using fun h => hY h.symm)]
      rfl
    constructor
    · unfold firstApproxPairs
      rw [step1, step2, step3]
    · unfold firstApproxPairs
      rw [step1, step2, step3]
      rfl

/-! ## Claim C7: shape handling of `phase_correlate` -/

/-- The all-ones image. -/
def onesImg (h w : ℕ) : Image h w := fun _ _ => 1

/-- C7 counterexample: `phase_correlate` does not fail on every pair of
differently-shaped inputs — a `2 × 2` and a `1 × 2` image have different
shapes, yet the pipeline silently succeeds, because the source never
checks shapes and numpy broadcasts the elementwise spectrum product. -/
theorem C7_counterexample_broadcastable_shapes :
    (phase_correlate_bc (onesImg 2 2) (onesImg 1 2) (1 / 10 ^ 10 : ℝ)).isOk = true := by
  unfold phase_correlate_bc
  rw [if_pos ⟨Or.inr (Or.inr rfl), Or.inl rfl⟩]
  rfl

/-- C7 (amended): `phase_correlate` contains no dimension check.  When the
two shapes cannot be broadcast together the elementwise product
`F1 * np.conjugate(F2)` raises numpy's `ValueError` (propagated to the
caller); every broadcast-compatible pair of shapes — equal or not — is
silently accepted. -/
theorem C7_amended_no_shape_check {h1 w1 h2 w2 : ℕ}
    [NeZero h1] [NeZero w1] [NeZero h2] [NeZero w2]
    (img1 : Image h1 w1) (img2 : Image h2 w2) (eps : ℝ) :
    (¬(bcCompat h1 h2 ∧ bcCompat w1 w2) →
      phase_correlate_bc img1 img2 eps = .error .valueErr) ∧
    ((bcCompat h1 h2 ∧ bcCompat w1 w2) →
      (phase_correlate_bc img1 img2 eps).isOk = true) := by
  constructor
  · intro hn
    unfold phase_correlate_bc
    rw [if_neg hn]
  · intro hc
    unfold phase_correlate_bc
    rw [if_pos hc]
    rfl

/-- Witness for the amended C7: a `3 × 3` against a `2 × 2` image is not
broadcastable, and the pipeline fails with the broadcast `ValueError`. -/
theorem C7_amended_no_shape_check_witness :
    phase_correlate_bc (onesImg 3 3) (onesImg 2 2) (1 / 10 ^ 10 : ℝ) = .error .valueErr :=
  (C7_amended_no_shape_check (onesImg 3 3) (onesImg 2 2) (1 / 10 ^ 10 : ℝ)).1 (by decide)

/-! ## Claim C3: self-registration

Value lemmas for the DFT kernel `eTheta` at the phase fractions that occur
in `2 × 2` transforms, the bound `corr_abs ≤ 1` on the normalised
correlation surface, and the behaviour of `phase_correlate(I, I)`. -/

theorem eTheta_zero : eTheta 0 = 1 := by
  unfold eTheta
  norm_num

theorem eTheta_half : eTheta (1 / 2) = -1 := by
  unfold eTheta
  have harg : 2 * Real.pi * (((1 : ℚ) / 2 : ℚ) : ℝ) = Real.pi := by
    push_cast
    ring
  rw [harg]
  exact Complex.exp_pi_mul_I

theorem eTheta_neg_half : eTheta (-(1 / 2)) = -1 := by
  unfold eTheta
  have harg : 2 * Real.pi * ((-(1 / 2) : ℚ) : ℝ) = -Real.pi := by
    push_cast
    ring
  rw [harg]
  have : ((-Real.pi : ℝ) : ℂ) * Complex.I = -((Real.pi : ℝ) * Complex.I) := by
    push_cast
    ring
  rw [this, Complex.exp_neg, Complex.exp_pi_mul_I]
  norm_num

theorem eTheta_int (n : ℤ) : eTheta n = 1 := by
  unfold eTheta
  have harg : (((2 * Real.pi * ((n : ℚ) : ℝ) : ℝ)) : ℂ) * Complex.I =
      (n : ℂ) * (2 * (Real.pi : ℂ) * Complex.I) := by
    push_cast
    ring
  rw [harg]
  exact Complex.exp_int_mul_two_pi_mul_I n

theorem eTheta_one : eTheta 1 = 1 := by
  have := eTheta_int 1
  norm_num at this
  simpa using this

theorem eTheta_neg_one : eTheta (-1) = 1 := by
  have := eTheta_int (-1)
  norm_num at this
  simpa using this

theorem eTheta_abs (q : ℚ) : Complex.abs (eTheta q) = 1 :=
  Complex.abs_exp_ofReal_mul_I _

/-- Each entry of the normalised cross-power spectrum has magnitude at
most one (for a nonnegative `eps`). -/
theorem normalizeCP_abs_le_one (z : ℂ) {eps : ℝ} (hε : 0 ≤ eps) :
    Complex.abs (normalizeCP z eps) ≤ 1 := by
  unfold normalizeCP
  rw [map_div₀, Complex.abs_ofReal,
    abs_of_nonneg (by positivity : (0 : ℝ) ≤ Complex.abs z + eps)]
  exact div_le_one_of_le₀ (by linarith) (by positivity)

/-- The correlation-magnitude surface of `phase_correlate` is bounded by
one: the correlation peak "confidence" can never exceed `1`. -/
theorem corrSurface_le_one {h w : ℕ} [NeZero h] [NeZero w]
    (img1 img2 : Image h w) (eps : ℝ) (hε : 0 ≤ eps) (i : Fin h) (j : Fin w) :
    corrSurface img1 img2 eps i j ≤ 1 := by
  have key : ∀ (R : Image h w), (∀ k l, Complex.abs (R k l) ≤ 1) →
      ∀ m n, Complex.abs (ifft2 R m n) ≤ 1 := by
    intro R hR m n
    unfold ifft2
    rw [map_div₀, Complex.abs_natCast]
    have hpos : 0 < (h : ℝ) * w := by
      have h1 := Nat.pos_of_ne_zero (NeZero.ne h)
      have h2 := Nat.pos_of_ne_zero (NeZero.ne w)
      positivity
    have hnum : Complex.abs (∑ k : Fin h, ∑ l : Fin w,
        R k l * eTheta (((k.val : ℚ) * m.val) / h + ((l.val : ℚ) * n.val) / w)) ≤
        (h : ℝ) * w := by
      calc Complex.abs (∑ k : Fin h, ∑ l : Fin w,
          R k l * eTheta (((k.val : ℚ) * m.val) / h + ((l.val : ℚ) * n.val) / w)) ≤
          ∑ k : Fin h, Complex.abs (∑ l : Fin w,
            R k l * eTheta (((k.val : ℚ) * m.val) / h + ((l.val : ℚ) * n.val) / w)) :=
            Complex.abs.sum_le _ _
        _ ≤ ∑ _k : Fin h, (w : ℝ) := by
            apply Finset.sum_le_sum
            intro k _
            calc Complex.abs (∑ l : Fin w,
                R k l * eTheta (((k.val : ℚ) * m.val) / h + ((l.val : ℚ) * n.val) / w)) ≤
                ∑ l : Fin w, Complex.abs
                  (R k l * eTheta (((k.val : ℚ) * m.val) / h + ((l.val : ℚ) * n.val) / w)) :=
                  Complex.abs.sum_le _ _
              _ ≤ ∑ _l : Fin w, (1 : ℝ) := by
                  apply Finset.sum_le_sum
                  intro l _
                  rw [map_mul, eTheta_abs, mul_one]
                  exact hR k l
              _ = (w : ℝ) := by simp
        _ = (h : ℝ) * w := by simp [mul_comm]
    have hcast : (((h * w : ℕ) : ℝ)) = (h : ℝ) * w := by push_cast; ring
    rw [hcast]
    exact div_le_one_of_le₀ hnum (le_of_lt hpos)
  unfold corrSurface fftshift
  exact key _ (fun k l => normalizeCP_abs_le_one _ hε) _ _

/-- C3 (amended): self-registration `estimateShift(I, I)` returns shift
exactly `(0, 0)`, with confidence the center peak magnitude (never above
`1`), for every image whose self-correlation magnitude surface attains its
row-major-first argmax at the centered zero-lag bin and is symmetric
across the center at the peak's axis neighbours — as holds for
non-degenerate images.  (Degenerate images, e.g. constant ones, violate
the premise and return `(-(W//2), -(H//2))` with a small peak value, see
the counterexample.) -/
theorem C3_amended_self_registration {h w : ℕ} [NeZero h] [NeZero w]
    (I : Image h w) (eps : ℝ) (hε : 0 ≤ eps)
    (hpeak : argmax2 (corrSurface I I eps) = centerIdx h w)
    (hsymY : ∀ _hh : 0 < h / 2 ∧ h / 2 < h - 1,
      corrSurface I I eps ⟨h / 2 - 1, by have := Nat.pos_of_ne_zero (NeZero.ne h); omega⟩
          (centerIdx h w).2 =
        corrSurface I I eps ⟨h / 2 + 1, by omega⟩ (centerIdx h w).2)
    (hsymX : ∀ _hw : 0 < w / 2 ∧ w / 2 < w - 1,
      corrSurface I I eps (centerIdx h w).1
          ⟨w / 2 - 1, by have := Nat.pos_of_ne_zero (NeZero.ne w); omega⟩ =
        corrSurface I I eps (centerIdx h w).1 ⟨w / 2 + 1, by omega⟩) :
    phase_correlate I I eps =
      ((0, 0), corrSurface I I eps (centerIdx h w).1 (centerIdx h w).2) ∧
    corrSurface I I eps (centerIdx h w).1 (centerIdx h w).2 ≤ 1 := by
  refine ⟨?_, corrSurface_le_one I I eps hε _ _⟩
  have hsub : parabolic_subpixel (corrSurface I I eps) (centerIdx h w) = (0, 0) := by
    unfold parabolic_subpixel
    refine Prod.ext ?_ ?_ <;> dsimp only
    · split_ifs with h1 h2
      · rw [div_eq_zero_iff]
        left
        rw [sub_eq_zero]
        exact hsymY h1
      · rfl
      · rfl
    · split_ifs with h1 h2
      · rw [div_eq_zero_iff]
        left
        rw [sub_eq_zero]
        exact hsymX h1
      · rfl
      · rfl
  unfold phase_correlate pc_post
  dsimp only
  rw [hpeak, hsub]
  have hcy : (centerIdx h w).1.val = h / 2 := rfl
  have hcx : (centerIdx h w).2.val = w / 2 := rfl
  rw [hcy, hcx]
  push_cast
  norm_num

/-- The 2 × 2 image with a single unit impulse at the origin; its spectrum
is identically `1`, making every premise of the amended C3 checkable. -/
def delta22 : Image 2 2 := fun m n => if m.val = 0 ∧ n.val = 0 then 1 else 0

theorem fft2_onesImg22 (k l : Fin 2) :
    fft2 (onesImg 2 2) k l = if k.val = 0 ∧ l.val = 0 then 4 else 0 := by
  unfold fft2 onesImg
  fin_cases k <;> fin_cases l <;>
    · simp only [Fin.sum_univ_two]
      norm_num [eTheta_zero, eTheta_neg_half, eTheta_neg_one]

theorem fft2_delta22 (k l : Fin 2) : fft2 delta22 k l = 1 := by
  unfold fft2 delta22
  fin_cases k <;> fin_cases l <;>
    · simp only [Fin.sum_univ_two]
      norm_num [eTheta_zero, eTheta_neg_half, eTheta_neg_one]

/-- The fixed `eps` of the source's default argument, `1e-10`. -/
noncomputable def eps0 : ℝ := 1 / 10 ^ 10

theorem crossSelf_onesImg22 (k l : Fin 2) :
    normalizeCP (fft2 (onesImg 2 2) k l * (starRingEnd ℂ) (fft2 (onesImg 2 2) k l)) eps0 =
      if k.val = 0 ∧ l.val = 0 then (((16 / (16 + eps0) : ℝ)) : ℂ) else 0 := by
  rw [fft2_onesImg22]
  unfold normalizeCP eps0
  by_cases hkl : k.val = 0 ∧ l.val = 0
  · rw [if_pos hkl, if_pos hkl]
    norm_num [map_ofNat, Complex.abs_ofNat]
  · rw [if_neg hkl, if_neg hkl]
    norm_num

theorem crossSelf_delta22 (k l : Fin 2) :
    normalizeCP (fft2 delta22 k l * (starRingEnd ℂ) (fft2 delta22 k l)) eps0 =
      (((1 / (1 + eps0) : ℝ)) : ℂ) := by
  rw [fft2_delta22]
  unfold normalizeCP eps0
  norm_num

theorem corr_onesImg22 (m n : Fin 2) :
    ifft2 (fun k l =>
      normalizeCP (fft2 (onesImg 2 2) k l * (starRingEnd ℂ) (fft2 (onesImg 2 2) k l)) eps0)
      m n = (((4 / (16 + eps0) : ℝ)) : ℂ) := by
  unfold ifft2
  simp only [crossSelf_onesImg22]
  fin_cases m <;> fin_cases n <;>
    · simp only [Fin.sum_univ_two]
      norm_num [eTheta_zero, eTheta_half, eTheta_one]
      try ring

theorem corr_delta22 (m n : Fin 2) :
    ifft2 (fun k l =>
      normalizeCP (fft2 delta22 k l * (starRingEnd ℂ) (fft2 delta22 k l)) eps0)
      m n = if m.val = 0 ∧ n.val = 0 then (((1 / (1 + eps0) : ℝ)) : ℂ) else 0 := by
  unfold ifft2
  simp only [crossSelf_delta22]
  fin_cases m <;> fin_cases n <;>
    · simp only [Fin.sum_univ_two]
      norm_num [eTheta_zero, eTheta_half, eTheta_one]
      try ring

theorem surface_onesImg22 (i j : Fin 2) :
    corrSurface (onesImg 2 2) (onesImg 2 2) eps0 i j = 4 / (16 + eps0) := by
  unfold corrSurface fftshift
  rw [corr_onesImg22, Complex.abs_ofReal]
  rw [abs_of_pos]
  unfold eps0
  positivity

theorem surface_delta22 (i j : Fin 2) :
    corrSurface delta22 delta22 eps0 i j =
      if i.val = 1 ∧ j.val = 1 then 1 / (1 + eps0) else 0 := by
  have hval : Complex.abs (((1 / (1 + eps0) : ℝ)) : ℂ) = 1 / (1 + eps0) := by
    rw [Complex.abs_ofReal, abs_of_pos]
    unfold eps0
    positivity
  have hval2 : Complex.abs (1 + (eps0 : ℂ)) = 1 + eps0 := by
    rw [show (1 + (eps0 : ℂ)) = (((1 + eps0 : ℝ)) : ℂ) by push_cast; ring,
      Complex.abs_ofReal, abs_of_pos]
    unfold eps0
    positivity
  unfold corrSurface fftshift
  rw [corr_delta22]
  fin_cases i <;> fin_cases j <;> norm_num [hval, hval2]

theorem idxList22 : idxList 2 2 = [(0, 0), (0, 1), (1, 0), (1, 1)] := by decide

theorem argmax_onesImg22 :
    argmax2 (corrSurface (onesImg 2 2) (onesImg 2 2) eps0) = (0, 0) := by
  unfold argmax2
  rw [idxList22]
  simp [surface_onesImg22, lt_irrefl]

theorem argmax_delta22 :
    argmax2 (corrSurface delta22 delta22 eps0) = (1, 1) := by
  unfold argmax2
  rw [idxList22]
  have hpos : (0 : ℝ) < 1 / (1 + eps0) := by unfold eps0; positivity
  have hpos1 : (0 : ℝ) < 1 + eps0 := by unfold eps0; norm_num
  simp [surface_delta22, lt_irrefl, hpos, hpos1]

/-- C3 counterexample: for the constant `2 × 2` image of ones the
self-registration `phase_correlate(I, I)` returns shift `(-1, -1)` — not
`(0, 0)` — with confidence below `1/2`: the correlation surface is
constant, and `np.argmax`'s first-in-scan-order tie break lands on the
corner bin, a full pixel away from the zero-lag center. -/
theorem C3_counterexample_constant_image :
    (phase_correlate (onesImg 2 2) (onesImg 2 2) eps0).1 = (-1, -1) ∧
    (phase_correlate (onesImg 2 2) (onesImg 2 2) eps0).1 ≠ ((0 : ℝ), (0 : ℝ)) ∧
    (phase_correlate (onesImg 2 2) (onesImg 2 2) eps0).2 < 1 / 2 := by
  have hsub : parabolic_subpixel (corrSurface (onesImg 2 2) (onesImg 2 2) eps0)
      ((0, 0) : Fin 2 × Fin 2) = (0, 0) := by
    unfold parabolic_subpixel
    norm_num
  have hmain : phase_correlate (onesImg 2 2) (onesImg 2 2) eps0 =
      ((-1, -1), 4 / (16 + eps0)) := by
    unfold phase_correlate pc_post
    dsimp only
    rw [argmax_onesImg22, hsub, surface_onesImg22]
    norm_num
  rw [hmain]
  refine ⟨rfl, ?_, ?_⟩
  · simp [Prod.ext_iff]
  · unfold eps0
    norm_num

/-- Witness for the amended C3 at the concrete impulse image `delta22`:
its self-correlation surface peaks at the center with symmetric
neighbours, and `phase_correlate(delta22, delta22)` returns exactly
`((0, 0), 1/(1 + eps))` with the confidence within `eps` of 1. -/
theorem C3_amended_self_registration_witness :
    phase_correlate delta22 delta22 eps0 =
      ((0, 0), corrSurface delta22 delta22 eps0 (centerIdx 2 2).1 (centerIdx 2 2).2) ∧
    corrSurface delta22 delta22 eps0 (centerIdx 2 2).1 (centerIdx 2 2).2 ≤ 1 :=
  C3_amended_self_registration delta22 eps0 (by unfold eps0; norm_num)
    (by rw [argmax_delta22]; rfl)
    (fun hh => absurd hh (by norm_num))
    (fun hh => absurd hh (by norm_num))

/-- Witness for C10 at concrete displacements and positions. -/
theorem C10_dict_key_collapse_witness :
    ((dictInsert (dictInsert [((5, 5), (6, 6))] ((1 : ℚ), (2 : ℚ)) (3, 4)) (1, 2) (7, 8)).length =
        (dictInsert [((5, 5), (6, 6))] ((1 : ℚ), (2 : ℚ)) (3, 4)).length ∧
      (((1 : ℚ), (2 : ℚ)), ((7 : ℚ), (8 : ℚ))) ∈
        dictInsert (dictInsert [((5, 5), (6, 6))] ((1 : ℚ), (2 : ℚ)) (3, 4)) (1, 2) (7, 8) ∧
      (((1 : ℚ), (2 : ℚ)), ((3 : ℚ), (4 : ℚ))) ∉
        dictInsert (dictInsert [((5, 5), (6, 6))] ((1 : ℚ), (2 : ℚ)) (3, 4)) (1, 2) (7, 8)) ∧
    (firstApproxPairs (9, 9) (0, 0) (2, 3) (0, 60) (4, 5) = [((0, 0), (2, 3)), ((0, 60), (4, 5))] ∧
      (affineRows (firstApproxPairs (9, 9) (0, 0) (2, 3) (0, 60) (4, 5))).length = 2) :=
  C10_dict_key_collapse [((5, 5), (6, 6))] (1, 2) (3, 4) (7, 8)
    (by norm_num [Prod.ext_iff]) (9, 9) (2, 3) (0, 60) (4, 5)
    (by norm_num [Prod.ext_iff])

/-- **C1**: in every calibration session, every stage move commanded by
the controller targets a position within the safe-travel radius (10000)
of the session's initial position — squared Euclidean form — and any
requested target beyond the radius makes `snap_image_at` abort with the
calibration failure before the move command is issued, the check being
taken against the recorded *initial* position (whatever the current
stage position is). -/
theorem C1_moves_within_radius {Img : Type} (env : Env Img) (p0 : ℚ × ℚ) :
    (∀ m ∈ ((run env (initSt Img p0)).2).moves, dist2 p0 m ≤ 10000 ^ 2) ∧
    ∀ (s : St Img) (ip : ℚ × ℚ) (x y : ℚ), s.initial_position = some ip →
      dist2 ip (x, y) > s.safe_travel_radius ^ 2 →
      snap_image_at env x y s = (.error .calibrationFailed, s) := by
  constructor
  · rw [run_snd]
    exact (C1Inv_run_calibration env p0).2.2
  · intro s ip x y hip habove
    obtain ⟨pos0, sc0, mv0, pr0, hs0, ip0, ri0, r0⟩ := s
    simp only at hip habove
    subst hip
    simp only [snap_image_at, M_bind_apply, getInitial_apply, getRadius_apply]
    rw [if_pos (by simpa [dist2] using habove)]
    rfl

/-- Witness for C1: in the aborting session the issued move `(0, 0)` is
within the radius of the initial position `(0, 0)`, and the over-radius
request at `(20000, 0)` aborts without moving. -/
theorem C1_moves_within_radius_witness :
    dist2 ((0 : ℚ), (0 : ℚ)) ((0 : ℚ), (0 : ℚ)) ≤ 10000 ^ 2 ∧
    snap_image_at envAbort 20000 0 sAfin = (.error .calibrationFailed, sAfin) := by
  constructor
  · refine (C1_moves_within_radius envAbort ((0 : ℚ), (0 : ℚ))).1 (0, 0) ?_
    rw [run_envAbort]
    norm_num [sAfin]
  · exact (C1_moves_within_radius envAbort ((0 : ℚ), (0 : ℚ))).2 sAfin (0, 0) 20000 0
      (by norm_num [sAfin]) (by norm_num [sAfin, dist2])

/-- **C2** (counterexample): a session that fails (here via the safety
abort) does *not* restore the stage: `run` swallows the calibration
failure and returns with the stage parked at `(6553.6, 0)`, far from the
initial position `(0, 0)`. -/
theorem C2_counterexample_no_restore_on_failure :
    (run_calibration envAbort (initSt ℕ (0, 0))).1 = .error .calibrationFailed ∧
    (run envAbort (initSt ℕ (0, 0))).1 = .ok () ∧
    (run envAbort (initSt ℕ (0, 0))).2.pos ≠ (initSt ℕ (0, 0)).pos := by
  refine ⟨by rw [run_calibration_envAbort], by rw [run_envAbort], ?_⟩
  rw [run_envAbort]
  norm_num [sAfin, initSt, Prod.ext_iff]

/-- **C2** (amended): only on *successful* completion is the stage moved
back to the session's initial position before control returns. -/
theorem C2_amended_restore_on_success {Img : Type} (env : Env Img) (p0 : ℚ × ℚ)
    (m : Mat3) (s' : St Img) (h : run_calibration env (initSt Img p0) = (.ok m, s')) :
    s'.pos = p0 :=
  run_calibration_ok_pos env p0 m s' h

/-- Witness for the amended C2: the successful session ends with the
stage restored to the origin. -/
theorem C2_amended_restore_on_success_witness : sOkFin.pos = ((0 : ℚ), (0 : ℚ)) :=
  C2_amended_restore_on_success envOk (0, 0) matOk sOkFin run_calibration_envOk

/-- **C4**: the doubling search breaks immediately (returning the running
displacement and current stage position, with no move issued) as soon as
twice the running displacement exceeds 100 pixels on either axis; it
performs at most 25 progress-counted iterations; and whenever it returns
normally it produces exactly one (accumulated displacement, stage
position) calibration point, the position being the stage position in the
final state. -/
theorem C4_search_capped {Img : Type} (env : Env Img) (dxi dyi : ℚ) (d0 : ℚ × ℚ)
    (s : St Img) :
    ((|2 * d0.1| > 100 ∨ |2 * d0.2| > 100) →
      run_search env dxi dyi d0 s = (.ok (d0, s.pos), s)) ∧
    (run_search env dxi dyi d0 s).2.hist.length ≤ s.hist.length + 25 ∧
    ∀ v, (run_search env dxi dyi d0 s).1 = .ok v →
      v.2 = (run_search env dxi dyi d0 s).2.pos := by
  refine ⟨?_, histB_run_search env dxi dyi d0 s, ?_⟩
  · intro hbrk
    rw [run_search_eval]
    rw [show (25 : ℕ) = 24 + 1 from rfl, run_search_loop_break env 24 dxi dyi d0 s hbrk]
  · intro v hv
    rw [run_search_eval] at hv ⊢
    rcases h : run_search_loop env 25 dxi dyi d0 s with ⟨r, s'⟩
    cases r with
    | error e =>
      rw [h] at hv
      simp at hv
    | ok d =>
      rw [h] at hv
      dsimp only at hv
      injection hv with hv2
      rw [← hv2]

/-- Witness for C4: with running displacement already `(60, 0)` the
search returns it unchanged from the fresh state, its history grows by
at most 25 entries, and the returned point carries the final stage
position. -/
theorem C4_search_capped_witness :
    run_search envAbort 1 1 ((60 : ℚ), (0 : ℚ)) (initSt ℕ (0, 0)) =
      (.ok (((60 : ℚ), (0 : ℚ)), (initSt ℕ (0, 0)).pos), initSt ℕ (0, 0)) ∧
    (run_search envAbort 1 1 ((60 : ℚ), (0 : ℚ)) (initSt ℕ (0, 0))).2.hist.length ≤
      (initSt ℕ (0, 0)).hist.length + 25 ∧
    (((60 : ℚ), (0 : ℚ)), (initSt ℕ (0, 0)).pos).2 =
      (run_search envAbort 1 1 ((60 : ℚ), (0 : ℚ)) (initSt ℕ (0, 0))).2.pos := by
  have hc := C4_search_capped envAbort 1 1 ((60 : ℚ), (0 : ℚ)) (initSt ℕ (0, 0))
  have h1 := hc.1 (by norm_num)
  exact ⟨h1, hc.2.1, hc.2.2 (((60 : ℚ), (0 : ℚ)), (initSt ℕ (0, 0)).pos) (by rw [h1])⟩

/-- **C8** (counterexample): the progress counter is *not* monotonically
increasing across a whole run: in the decreasing session the ghost
history of `self.progress` is `0, 1, ..., 21, 20` — the phase-transition
assignment `self.progress = 20` runs after the two searches have already
pushed the counter to 21. -/
theorem C8_counterexample_progress_decrease :
    (run env8 (initSt ℕ (0, 0))).2.hist =
      [0, 1, 2, 3, 4, 5, 6, 7, 8, 9, 10, 11, 12, 13, 14, 15, 16, 17, 18, 19, 20, 21, 20] ∧
    ¬ List.Chain' (· ≤ ·) ((run env8 (initSt ℕ (0, 0))).2.hist) := by
  constructor
  · rw [run_env8]
    rfl
  · rw [run_env8]
    simp only [s8fin, List.chain'_cons, List.chain'_singleton]
    omega

/-- **C8** (amended): every step of the controller either increments the
progress counter or is the single phase-transition assignment
`self.progress = 20`; consecutive values of the counter therefore always
satisfy `a ≤ b ∨ b = 20` over any complete run. -/
theorem C8_amended_monotone_except_reset {Img : Type} (env : Env Img) (p0 : ℚ × ℚ) :
    List.Chain' (fun a b : ℤ => a ≤ b ∨ b = 20) ((run env (initSt Img p0)).2.hist) := by
  have h0 : HistInv (initSt Img p0) := by
    constructor
    · simp [initSt]
    · simp [initSt]
  rw [run_snd]
  exact (HistInv_run_calibration env (initSt Img p0) h0).1

end Calib
